import Mathlib

/-!
Verification of the noctua document-viewer core: a shallow embedding of the
raster / vector / portable (PDF) document backends and their dispatchers,
with theorems checking the natural-language specification against the code.

Pixel buffers (`image::DynamicImage`) are modelled as a width, a height and a
pixel function; machine integers (`u32`, `usize`, `i16`) are modelled as `Nat`
or `Int`; `f32`/`f64` quantities that the claims reason about (fine rotation
degrees, render scales) are modelled as `ℚ`; fallible Rust methods returning
`Result`/`anyhow::Result` are modelled with `Except String`, and methods that
mutate `&mut self` are modelled by explicit state passing.  External
collaborators (the poppler/cairo page rasterizer, the resvg/tiny-skia scene
rasterizer, the disk thumbnail cache) are modelled as oracle functions stored
in the document state, returning `Option` where the collaborator can fail.
-/

set_option linter.unusedVariables false

namespace Noctua

/-- An RGBA pixel, abstracted as an opaque payload value. -/
abbrev Pix := Nat

/-- A decoded pixel buffer (`image::DynamicImage`): a width, a height, and the
pixel stored at each in-bounds coordinate. -/
structure Img where
  width : Nat
  height : Nat
  pix : Nat → Nat → Pix

/-- Two buffers display identically: equal dimensions and equal pixels at every
in-bounds coordinate. -/
def Img.Equiv (a b : Img) : Prop :=
  a.width = b.width ∧ a.height = b.height ∧
    ∀ x y, x < a.width → y < a.height → a.pix x y = b.pix x y

/-- `image::imageops::rotate90` — rotate 90 degrees clockwise: the output has
swapped dimensions and `out(x, y) = in(y, h - 1 - x)`. -/
def rotate90 (i : Img) : Img :=
  ⟨i.height, i.width, fun x y => i.pix y (i.height - 1 - x)⟩

/-- `image::imageops::rotate180`. -/
def rotate180 (i : Img) : Img :=
  ⟨i.width, i.height, fun x y => i.pix (i.width - 1 - x) (i.height - 1 - y)⟩

/-- `image::imageops::rotate270` — rotate 270 degrees clockwise. -/
def rotate270 (i : Img) : Img :=
  ⟨i.height, i.width, fun x y => i.pix (i.width - 1 - y) x⟩

/-- `image::imageops::flip_horizontal` — mirror columns. -/
def flip_horizontal (i : Img) : Img :=
  ⟨i.width, i.height, fun x y => i.pix (i.width - 1 - x) y⟩

/-- `image::imageops::flip_vertical` — mirror rows. -/
def flip_vertical (i : Img) : Img :=
  ⟨i.width, i.height, fun x y => i.pix x (i.height - 1 - y)⟩

/-- `image::imageops::crop_imm` / `DynamicImage::crop_imm`: cut out the
rectangle at `(x, y)` of size `(w, h)`; the image crate clamps the rectangle
to the image bounds before cutting. -/
def crop_imm (i : Img) (x y w h : Nat) : Img :=
  let cx := min x i.width
  let cy := min y i.height
  let cw := min w (i.width - cx)
  let ch := min h (i.height - cy)
  ⟨cw, ch, fun a b => i.pix (cx + a) (cy + b)⟩

/-- `create_image_handle` / `ImageHandle::from_rgba`: the display handle keeps
exactly the width, height and RGBA pixels of the buffer it was built from, so
it is modelled as the buffer itself. -/
def create_image_handle (i : Img) : Img := i

-- ============================================================================
-- Geometry / transform model (domain/document/core/document.rs)
-- ============================================================================

/-- Modelled from the spec: the `Rotation` enum of
`domain/document/core/document.rs` is not under `src/`; per the spec, standard
rotation is constrained to the four values 0, 90, 180 and 270 degrees. -/
inductive Rotation
  | None
  | Cw90
  | Cw180
  | Cw270
deriving DecidableEq

/-- Degrees of a standard rotation step. -/
def Rotation.to_degrees : Rotation → Int
  | .None => 0
  | .Cw90 => 90
  | .Cw180 => 180
  | .Cw270 => 270

/-- The standard rotation whose degree value is `n` (for `n` one of 0, 90,
180, 270; other inputs fall back to no rotation). -/
def Rotation.of_degrees (n : Int) : Rotation :=
  if n = 90 then .Cw90
  else if n = 180 then .Cw180
  else if n = 270 then .Cw270
  else .None

/-- Modelled from the spec: `RotationMode` of
`domain/document/core/document.rs` is not under `src/`; per the spec it is a
sum type, `Standard(0|90|180|270)` or `Fine(degrees: f32)`, with the `f32`
degrees modelled as `ℚ`. -/
inductive RotationMode
  | Standard (r : Rotation)
  | Fine (deg : ℚ)
deriving DecidableEq

/-- Round half away from zero (the rounding of `f32::round`). -/
def round_half_away (q : ℚ) : Int :=
  if 0 ≤ q then ⌊q + 1 / 2⌋ else -⌊-q + 1 / 2⌋

/-- Rust truncation of a rational toward zero (the `as i16` cast). -/
def rat_trunc (q : ℚ) : Int :=
  if 0 ≤ q then ⌊q⌋ else -⌊-q⌋

/-- Degrees of a rotation mode (`RotationMode::to_degrees`), truncated to an
integer as by the `as i16` casts at the call sites. -/
def RotationMode.to_degrees : RotationMode → Int
  | .Standard r => r.to_degrees
  | .Fine deg => rat_trunc deg

/-- Modelled from the spec: `RotationMode::rotate_cw`
(`domain/document/core/document.rs`, not under `src/`).  Per the spec, from
`Standard(d)` the result is `Standard((d + 90) mod 360)`; from `Fine(deg)` the
degrees are first rounded to the nearest multiple of 90 with ties away from
zero, then stepped by +90 and re-normalized into `[0, 360)`, reconciling to a
standard rotation. -/
def RotationMode.rotate_cw : RotationMode → RotationMode
  | .Standard r => .Standard (Rotation.of_degrees ((r.to_degrees + 90) % 360))
  | .Fine deg =>
      .Standard (Rotation.of_degrees ((round_half_away (deg / 90) * 90 + 90) % 360))

/-- Modelled from the spec: `RotationMode::rotate_ccw`
(`domain/document/core/document.rs`, not under `src/`); as `rotate_cw` but
stepping by -90. -/
def RotationMode.rotate_ccw : RotationMode → RotationMode
  | .Standard r => .Standard (Rotation.of_degrees ((r.to_degrees - 90) % 360))
  | .Fine deg =>
      .Standard (Rotation.of_degrees ((round_half_away (deg / 90) * 90 - 90) % 360))

/-- Flip axes (`FlipDirection`). -/
inductive FlipDirection
  | Horizontal
  | Vertical
deriving DecidableEq

/-- Modelled from the spec: `TransformState` of
`domain/document/core/document.rs` is not under `src/`; per the spec it holds
a rotation mode and two independent flip booleans. -/
structure TransformState where
  rotation : RotationMode
  flip_h : Bool
  flip_v : Bool
deriving DecidableEq

/-- `TransformState::default()`: no rotation, no flips. -/
def TransformState.default : TransformState :=
  ⟨.Standard .None, false, false⟩

-- ============================================================================
-- App tree (src/app/document): raster backend (raster.rs)
-- ============================================================================

namespace App

/-- `RasterDocument` (app/document/raster.rs): one decoded pixel buffer
mutated in place, the native dimensions recorded at open time, the transform
state, and the cached display handle. -/
structure RasterDocument where
  document : Noctua.Img
  native_width : Nat
  native_height : Nat
  transform : Noctua.TransformState
  handle : Noctua.Img

/-- `RasterDocument::dimensions`. -/
def RasterDocument.dimensions (d : RasterDocument) : Nat × Nat :=
  (d.document.width, d.document.height)

/-- `RasterDocument::refresh_handle`. -/
def RasterDocument.refresh_handle (d : RasterDocument) : RasterDocument :=
  { d with handle := Noctua.create_image_handle d.document }

/-- `RasterDocument::crop` (raster.rs lines 70-90): reject if
`x + width > img_width || y + height > img_height`; otherwise replace the
buffer with the cut-out, reset the native dimensions to the crop size, reset
the transform to identity, and refresh the handle.  The first component is
the returned `Result`; the second is the document after the call. -/
def RasterDocument.crop (d : RasterDocument) (x y width height : Nat) :
    Except String Unit × RasterDocument :=
  let img_width := d.document.width
  let img_height := d.document.height
  if x + width > img_width ∨ y + height > img_height then
    (Except.error "Crop rectangle out of bounds", d)
  else
    let cropped := Noctua.crop_imm d.document x y width height
    (Except.ok (),
      RasterDocument.refresh_handle
        { d with
          document := cropped
          native_width := width
          native_height := height
          transform := Noctua.TransformState.default })

/-- `Transformable::rotate` for `RasterDocument` (raster.rs lines 141-161):
compute the degree difference from the current rotation to the target, apply
the corresponding exact pixel permutation in place, record the target as the
new rotation, and refresh the handle.  (The source marks any other
difference `unreachable!`; the model leaves the buffer unchanged there.) -/
def RasterDocument.rotate (d : RasterDocument) (rotation : Noctua.Rotation) :
    RasterDocument :=
  let current_deg := d.transform.rotation.to_degrees
  let new_deg := rotation.to_degrees
  let diff_deg := (new_deg - current_deg + 360).tmod 360
  let doc :=
    if diff_deg = 0 then d.document
    else if diff_deg = 90 then Noctua.rotate90 d.document
    else if diff_deg = 180 then Noctua.rotate180 d.document
    else if diff_deg = 270 then Noctua.rotate270 d.document
    else d.document
  RasterDocument.refresh_handle
    { d with
      document := doc
      transform := { d.transform with rotation := .Standard rotation } }

/-- `Transformable::flip` for `RasterDocument` (raster.rs lines 163-175):
mirror the buffer in place, toggle the matching flip flag, refresh the
handle. -/
def RasterDocument.flip (d : RasterDocument) (direction : Noctua.FlipDirection) :
    RasterDocument :=
  match direction with
  | .Horizontal =>
      RasterDocument.refresh_handle
        { d with
          document := Noctua.flip_horizontal d.document
          transform := { d.transform with flip_h := !d.transform.flip_h } }
  | .Vertical =>
      RasterDocument.refresh_handle
        { d with
          document := Noctua.flip_vertical d.document
          transform := { d.transform with flip_v := !d.transform.flip_v } }

-- ============================================================================
-- App tree: vector backend (vector.rs)
-- ============================================================================

/-- `VectorTransform` (vector.rs): rotation in degrees (`i16`, one of 0, 90,
180, 270) plus two flip booleans. -/
structure VectorTransform where
  rotation : Int
  flip_h : Bool
  flip_v : Bool
deriving DecidableEq

/-- `VectorTransform::default()`. -/
def VectorTransform.default : VectorTransform := ⟨0, false, false⟩

/-- `VectorDocument` (app/document/vector.rs).  The retained scene together
with the external resvg/tiny-skia rasterization pipeline (pixmap creation,
scene painting, unpremultiply) is abstracted as the oracle `rasterize`,
mapping a scale to the fresh base raster, or `none` when rasterization
fails. -/
structure VectorDocument where
  rasterize : ℚ → Option Noctua.Img
  native_width : Nat
  native_height : Nat
  current_scale : ℚ
  transform : VectorTransform
  rendered : Noctua.Img
  handle : Noctua.Img
  width : Nat
  height : Nat

/-- `render_document` (vector.rs lines 166-205): rasterize the retained scene
fresh at the requested scale (oracle `rasterize`), then apply horizontal
flip, vertical flip, and rotation, in that fixed order, and return the image
with its final dimensions. -/
def render_document (rasterize : ℚ → Option Noctua.Img) (scale : ℚ)
    (transform : VectorTransform) : Option (Noctua.Img × Nat × Nat) :=
  match rasterize scale with
  | Option.none => Option.none
  | Option.some base =>
      let i1 := if transform.flip_h then Noctua.flip_horizontal base else base
      let i2 := if transform.flip_v then Noctua.flip_vertical i1 else i1
      let i3 :=
        if transform.rotation = 90 then Noctua.rotate90 i2
        else if transform.rotation = 180 then Noctua.rotate180 i2
        else if transform.rotation = 270 then Noctua.rotate270 i2
        else i2
      Option.some (i3, i3.width, i3.height)

/-- `f32::EPSILON`, the tolerance used by `render_at_scale`. -/
def f32_eps : ℚ := 1 / 8388608

/-- `VectorDocument::render_at_scale` (vector.rs lines 89-115): skip (return
`false`, state untouched) when the requested scale is within `f32::EPSILON`
of the cached scale; otherwise re-render from the retained scene, and on
success install the new buffer, dimensions, scale and handle and return
`true`; on a render error, log and return `false` with the state
untouched. -/
def VectorDocument.render_at_scale (d : VectorDocument) (scale : ℚ) :
    Bool × VectorDocument :=
  if |d.current_scale - scale| < f32_eps then
    (false, d)
  else
    match render_document d.rasterize scale d.transform with
    | Option.some (rendered, width, height) =>
        (true,
          { d with
            current_scale := scale
            rendered := rendered
            width := width
            height := height
            handle := Noctua.create_image_handle rendered })
    | Option.none => (false, d)

/-- `VectorDocument::rerender` (vector.rs lines 144-157): re-render at the
current scale with the current transform; on error the state is silently
kept. -/
def VectorDocument.rerender (d : VectorDocument) : VectorDocument :=
  match render_document d.rasterize d.current_scale d.transform with
  | Option.some (rendered, width, height) =>
      { d with
        rendered := rendered
        width := width
        height := height
        handle := Noctua.create_image_handle rendered }
  | Option.none => d

/-- `VectorDocument::rotate_cw` (vector.rs lines 118-122): step the rotation
by `ROTATION_STEP` (90), `rem_euclid FULL_ROTATION` (360), then re-render. -/
def VectorDocument.rotate_cw (d : VectorDocument) : VectorDocument :=
  VectorDocument.rerender
    { d with transform := { d.transform with rotation := (d.transform.rotation + 90) % 360 } }

/-- `VectorDocument::rotate_ccw` (vector.rs lines 125-129). -/
def VectorDocument.rotate_ccw (d : VectorDocument) : VectorDocument :=
  VectorDocument.rerender
    { d with transform := { d.transform with rotation := (d.transform.rotation - 90) % 360 } }

/-- `VectorDocument::flip_horizontal` (vector.rs lines 132-135): toggle the
flag, re-render. -/
def VectorDocument.flip_horizontal (d : VectorDocument) : VectorDocument :=
  VectorDocument.rerender
    { d with transform := { d.transform with flip_h := !d.transform.flip_h } }

/-- `VectorDocument::flip_vertical` (vector.rs lines 138-141). -/
def VectorDocument.flip_vertical (d : VectorDocument) : VectorDocument :=
  VectorDocument.rerender
    { d with transform := { d.transform with flip_v := !d.transform.flip_v } }

/-- `VectorDocument::dimensions`. -/
def VectorDocument.dimensions (d : VectorDocument) : Nat × Nat :=
  (d.width, d.height)

-- ============================================================================
-- App tree: portable backend (portable.rs)
-- ============================================================================

/-- `PDF_RENDER_SCALE` (constant.rs): default render scale for PDF pages. -/
def PDF_RENDER_SCALE : ℚ := 2

/-- `PDF_THUMBNAIL_SCALE` (constant.rs): thumbnail render scale. -/
def PDF_THUMBNAIL_SCALE : ℚ := 1 / 4

/-- The 1x1 fully transparent placeholder thumbnail
(`ImageHandle::from_rgba(1, 1, vec![0, 0, 0, 0])`). -/
def placeholder_thumbnail : Noctua.Img := ⟨1, 1, fun _ _ => 0⟩

/-- `PortableDocument` (app/document/portable.rs).  The parsed poppler
document together with the cairo surface pipeline of `render_page_at_scale`
is abstracted as the oracle `page_render` (page index, rotation degrees,
scale; `none` when the render fails), and the disk thumbnail cache lookup
`cache::load_thumbnail(source_path, page)` as the oracle `cache_load`. -/
structure PortableDocument where
  page_render : Nat → Int → ℚ → Option Noctua.Img
  cache_load : Nat → Option Noctua.Img
  page_count : Nat
  current_page : Nat
  rotation : Int
  rendered : Noctua.Img
  handle : Noctua.Img
  thumbnail_cache : Option (List Noctua.Img)

/-- `PortableDocument::dimensions`. -/
def PortableDocument.dimensions (d : PortableDocument) : Nat × Nat :=
  (d.rendered.width, d.rendered.height)

/-- `PortableDocument::refresh_handle`. -/
def PortableDocument.refresh_handle (d : PortableDocument) : PortableDocument :=
  { d with handle := Noctua.create_image_handle d.rendered }

/-- `PortableDocument::thumbnails_ready` (portable.rs lines 63-68). -/
def PortableDocument.thumbnails_ready (d : PortableDocument) : Bool :=
  match d.thumbnail_cache with
  | Option.some c => d.page_count ≤ c.length
  | Option.none => false

/-- `PortableDocument::thumbnails_loaded` (portable.rs lines 71-76). -/
def PortableDocument.thumbnails_loaded (d : PortableDocument) : Nat :=
  match d.thumbnail_cache with
  | Option.some c => c.length
  | Option.none => 0

/-- `PortableDocument::init_thumbnail_cache` (portable.rs lines 79-83):
install an empty store only when none exists yet. -/
def PortableDocument.init_thumbnail_cache (d : PortableDocument) : PortableDocument :=
  match d.thumbnail_cache with
  | Option.some _ => d
  | Option.none => { d with thumbnail_cache := Option.some [] }

/-- `PortableDocument::load_or_generate_thumbnail` (portable.rs lines
124-139): consult the disk cache; on a miss render the page at the thumbnail
scale and build a handle; on a render failure log a warning and fall back to
the 1x1 transparent placeholder.  Always yields a handle. -/
def PortableDocument.load_or_generate_thumbnail (d : PortableDocument) (page : Nat) :
    Noctua.Img :=
  match d.cache_load page with
  | Option.some handle => handle
  | Option.none =>
      match d.page_render page 0 PDF_THUMBNAIL_SCALE with
      | Option.some img => Noctua.create_image_handle img
      | Option.none => placeholder_thumbnail

/-- `PortableDocument::generate_thumbnail_page` (portable.rs lines 86-110):
lazily initialize the store; if the requested page is not yet covered by the
store length and is in range, append one generated handle; return
`Some(page + 1)` when more pages remain, `None` once `page + 1` reaches the
page count.  First component is the returned value, second the document
after the call. -/
def PortableDocument.generate_thumbnail_page (d0 : PortableDocument) (page : Nat) :
    Option Nat × PortableDocument :=
  let d := d0.init_thumbnail_cache
  match d.thumbnail_cache with
  | Option.none => (Option.none, d)
  | Option.some cache =>
      let d1 :=
        if cache.length ≤ page ∧ page < d.page_count then
          { d with
            thumbnail_cache :=
              Option.some (cache ++ [d.load_or_generate_thumbnail page]) }
        else d
      (if page + 1 < d1.page_count then Option.some (page + 1) else Option.none, d1)

/-- `PortableDocument::rerender` (portable.rs lines 212-222): render the
current page at the current rotation; on success replace the buffer and
handle; on error log and keep the state. -/
def PortableDocument.rerender (d : PortableDocument) : PortableDocument :=
  match d.page_render d.current_page d.rotation PDF_RENDER_SCALE with
  | Option.some rendered =>
      PortableDocument.refresh_handle { d with rendered := rendered }
  | Option.none => d

/-- `PortableDocument::goto_page` (portable.rs lines 235-246): error when the
page is out of range; otherwise move the cursor and re-render. -/
def PortableDocument.goto_page (d : PortableDocument) (page : Nat) :
    Except String Unit × PortableDocument :=
  if d.page_count ≤ page then
    (Except.error "Page out of range", d)
  else
    (Except.ok (), PortableDocument.rerender { d with current_page := page })

/-- `PortableDocument::rotate_cw` (portable.rs lines 271-274). -/
def PortableDocument.rotate_cw (d : PortableDocument) : PortableDocument :=
  PortableDocument.rerender { d with rotation := (d.rotation + 90) % 360 }

/-- `PortableDocument::rotate_ccw` (portable.rs lines 277-280). -/
def PortableDocument.rotate_ccw (d : PortableDocument) : PortableDocument :=
  PortableDocument.rerender { d with rotation := (d.rotation - 90) % 360 }

/-- `PortableDocument::flip_horizontal` (portable.rs lines 283-286): mirror
the rendered page in place and refresh the handle. -/
def PortableDocument.flip_horizontal (d : PortableDocument) : PortableDocument :=
  PortableDocument.refresh_handle
    { d with rendered := Noctua.flip_horizontal d.rendered }

/-- `PortableDocument::flip_vertical` (portable.rs lines 289-292). -/
def PortableDocument.flip_vertical (d : PortableDocument) : PortableDocument :=
  PortableDocument.refresh_handle
    { d with rendered := Noctua.flip_vertical d.rendered }

-- ============================================================================
-- App tree: kind detection and type-erased dispatcher (mod.rs)
-- ============================================================================

/-- `DocumentKind` (app/document/mod.rs). -/
inductive DocumentKind
  | Raster
  | Vector
  | Portable
deriving DecidableEq

/-- ASCII lowercasing of an extension (`str::to_ascii_lowercase`),
character by character. -/
def ascii_lowercase (s : String) : String :=
  ⟨s.data.map Char.toLower⟩

/-- `DocumentKind::from_path` (app/document/mod.rs lines 92-110), as a
function of the file extension (`None` when the path has no extension) and
of the embedding image-format registry
(`CosmicImageFormat::from_extension`, an external crate, abstracted as the
predicate `registry`): lowercase the extension, map `pdf` to Portable and
`svg` to Vector, otherwise Raster exactly when the registry recognizes the
(original-case) extension, else no kind. -/
def DocumentKind.from_path (registry : String → Bool) (ext : Option String) :
    Option DocumentKind :=
  match ext with
  | Option.none => Option.none
  | Option.some ext_str =>
      let ext_lower := ascii_lowercase ext_str
      if ext_lower = "pdf" then Option.some DocumentKind.Portable
      else if ext_lower = "svg" then Option.some DocumentKind.Vector
      else if registry ext_str then Option.some DocumentKind.Raster
      else Option.none

/-- Modelled from the spec: the open flow that consumes
`DocumentKind::from_path` (`app/document/file.rs`, not under `src/`).  Per
the spec, opening detects the kind from the path and constructs the matching
backend; the backend constructors are abstracted as `construct`. -/
def open_document {B : Type} (construct : DocumentKind → Option B)
    (registry : String → Bool) (ext : Option String) : Option B :=
  match DocumentKind.from_path registry ext with
  | Option.some kind => construct kind
  | Option.none => Option.none

/-- `DocumentContent` (app/document/mod.rs lines 67-71): closed tagged union
over the three backends. -/
inductive DocumentContent
  | Raster (doc : RasterDocument)
  | Vector (doc : VectorDocument)
  | Portable (doc : PortableDocument)

/-- Modelled from the spec: `RasterDocument::rotate_cw` (not under `src/`).
Per the spec (sections 4.1 and 4.5) the clockwise step first computes the new
rotation mode via the reconciliation of `RotationMode::rotate_cw` (from
`Fine`, round to the nearest multiple of 90 with ties away from zero, then
step +90, normalized into `[0, 360)`), and delegates the resulting standard
value to `Transformable::rotate`, which raster implements in raster.rs. -/
def RasterDocument.rotate_cw (d : RasterDocument) : RasterDocument :=
  match d.transform.rotation.rotate_cw with
  | .Standard rot => d.rotate rot
  | .Fine _ => d

/-- `DocumentContent::rotate_cw` (app/document/mod.rs lines 149-155):
delegate the clockwise step to the live backend. -/
def DocumentContent.rotate_cw : DocumentContent → DocumentContent
  | .Raster doc => .Raster doc.rotate_cw
  | .Vector doc => .Vector doc.rotate_cw
  | .Portable doc => .Portable doc.rotate_cw

/-- `DocumentContent::flip_horizontal` (app/document/mod.rs lines 167-173). -/
def DocumentContent.flip_horizontal : DocumentContent → DocumentContent
  | .Raster doc => .Raster (doc.flip .Horizontal)
  | .Vector doc => .Vector doc.flip_horizontal
  | .Portable doc => .Portable doc.flip_horizontal

/-- `DocumentContent::flip_vertical` (app/document/mod.rs lines 176-182). -/
def DocumentContent.flip_vertical : DocumentContent → DocumentContent
  | .Raster doc => .Raster (doc.flip .Vertical)
  | .Vector doc => .Vector doc.flip_vertical
  | .Portable doc => .Portable doc.flip_vertical

/-- `DocumentContent::dimensions` (app/document/mod.rs lines 131-137). -/
def DocumentContent.dimensions : DocumentContent → Nat × Nat
  | .Raster doc => doc.dimensions
  | .Vector doc => doc.dimensions
  | .Portable doc => doc.dimensions

/-- The pixel content currently displayed by a document: the mutated buffer
for raster, the rendered raster for vector and portable. -/
def DocumentContent.content : DocumentContent → Noctua.Img
  | .Raster doc => doc.document
  | .Vector doc => doc.rendered
  | .Portable doc => doc.rendered

end App

-- ============================================================================
-- Domain tree (src/domain/document): portable backend (types/portable.rs)
-- ============================================================================

namespace Dom

/-- `PDF_RENDER_QUALITY` (types/portable.rs line 10). -/
def PDF_RENDER_QUALITY : ℚ := 2

/-- `PDF_THUMBNAIL_SIZE` (types/portable.rs line 13). -/
def PDF_THUMBNAIL_SIZE : ℚ := 1 / 4

/-- `PortableDocument` (domain/document/types/portable.rs).  The parsed
poppler document together with the cairo pipeline of `render_page_at_scale`
is abstracted as the oracle `page_render` (page index, rotation mode, scale;
`none` when rendering fails).  The disk cache is disabled in this revision
of the source (TODO comments), so no cache oracle appears. -/
structure PortableDocument where
  page_render : Nat → Noctua.RotationMode → ℚ → Option Noctua.Img
  num_pages : Nat
  page_index : Nat
  transform : Noctua.TransformState
  rendered : Noctua.Img
  handle : Noctua.Img
  thumbnail_cache : Option (List Noctua.Img)

/-- `PortableDocument::dimensions` (types/portable.rs lines 72-76). -/
def PortableDocument.dimensions (d : PortableDocument) : Nat × Nat :=
  (d.rendered.width, d.rendered.height)

/-- `PortableDocument::thumbnails_loaded` (types/portable.rs lines 91-93). -/
def PortableDocument.thumbnails_loaded (d : PortableDocument) : Nat :=
  match d.thumbnail_cache with
  | Option.some c => c.length
  | Option.none => 0

/-- `MultiPageThumbnails::thumbnails_ready` for `PortableDocument`
(types/portable.rs lines 423-427): the store exists and its length has
reached the page count. -/
def PortableDocument.thumbnails_ready (d : PortableDocument) : Bool :=
  match d.thumbnail_cache with
  | Option.some c => d.num_pages ≤ c.length
  | Option.none => false

/-- `PortableDocument::crop` (types/portable.rs lines 137-163): reject when
`x` or `y` lies outside the rendered bounds; otherwise clamp the width and
height to the available region, reject a zero-area result, and replace the
rendered page with the cut-out, refreshing the handle. -/
def PortableDocument.crop (d : PortableDocument) (x y width height : Nat) :
    Except String Unit × PortableDocument :=
  let img_width := d.rendered.width
  let img_height := d.rendered.height
  if img_width ≤ x ∨ img_height ≤ y then
    (Except.error "Crop region is outside rendered bounds", d)
  else
    let crop_width := min width (img_width - x)
    let crop_height := min height (img_height - y)
    if crop_width = 0 ∨ crop_height = 0 then
      (Except.error "Crop region has zero width or height", d)
    else
      let rendered := Noctua.crop_imm d.rendered x y crop_width crop_height
      (Except.ok (),
        { d with
          rendered := rendered
          handle := Noctua.create_image_handle rendered })

/-- `PortableDocument::init_thumbnail_cache` (types/portable.rs lines
170-175). -/
def PortableDocument.init_thumbnail_cache (d : PortableDocument) : PortableDocument :=
  match d.thumbnail_cache with
  | Option.some _ => d
  | Option.none => { d with thumbnail_cache := Option.some [] }

/-- `PortableDocument::load_or_generate_thumbnail` (types/portable.rs lines
205-227): render the page at the thumbnail scale with no rotation and build
a handle; on failure log a warning and fall back to the 1x1 transparent
placeholder.  Always yields a handle. -/
def PortableDocument.load_or_generate_thumbnail (d : PortableDocument) (page : Nat) :
    Noctua.Img :=
  match d.page_render page (Noctua.RotationMode.Standard Noctua.Rotation.None)
      PDF_THUMBNAIL_SIZE with
  | Option.some img => Noctua.create_image_handle img
  | Option.none => App.placeholder_thumbnail

/-- `PortableDocument::generate_thumbnail_page` (types/portable.rs lines
178-202): lazily initialize the store; if the requested page is not yet
covered by the store length and is in range, append one generated handle;
return `Some(page + 1)` when more pages remain, `None` once `page + 1`
reaches the page count. -/
def PortableDocument.generate_thumbnail_page (d0 : PortableDocument) (page : Nat) :
    Option Nat × PortableDocument :=
  let d := d0.init_thumbnail_cache
  match d.thumbnail_cache with
  | Option.none => (Option.none, d)
  | Option.some cache =>
      let d1 :=
        if cache.length ≤ page ∧ page < d.num_pages then
          { d with
            thumbnail_cache :=
              Option.some (cache ++ [d.load_or_generate_thumbnail page]) }
        else d
      (if page + 1 < d1.num_pages then Option.some (page + 1) else Option.none, d1)

/-- `MultiPageThumbnails::generate_all_thumbnails` (types/portable.rs lines
439-448): when not ready, initialize and drive the single-page primitive
over every page in order. -/
def PortableDocument.generate_all_thumbnails (d : PortableDocument) : PortableDocument :=
  if d.thumbnails_ready then d
  else
    (List.range d.num_pages).foldl
      (fun acc page => (acc.generate_thumbnail_page page).2)
      d.init_thumbnail_cache

/-- The flip post-process of `PortableDocument::rerender` (types/portable.rs
lines 306-312): apply `apply_flip` horizontally then vertically when the
matching flags are set. -/
def apply_transform_flips (t : Noctua.TransformState) (img : Noctua.Img) : Noctua.Img :=
  let r1 := if t.flip_h then Noctua.flip_horizontal img else img
  if t.flip_v then Noctua.flip_vertical r1 else r1

/-- `PortableDocument::rerender` (types/portable.rs lines 302-320): render
the current page at the current rotation, apply the horizontal and vertical
flips as a post-process, replace the buffer and handle; on a render error
log and keep the state. -/
def PortableDocument.rerender (d : PortableDocument) : PortableDocument :=
  match d.page_render d.page_index d.transform.rotation PDF_RENDER_QUALITY with
  | Option.some rendered0 =>
      let r2 := apply_transform_flips d.transform rendered0
      { d with
        rendered := r2
        handle := Noctua.create_image_handle r2 }
  | Option.none => d

/-- `Transformable::rotate` for `PortableDocument` (types/portable.rs lines
381-384): record the standard rotation and re-render. -/
def PortableDocument.rotate (d : PortableDocument) (rotation : Noctua.Rotation) :
    PortableDocument :=
  PortableDocument.rerender
    { d with
      transform := { d.transform with rotation := .Standard rotation } }

/-- `Transformable::flip` for `PortableDocument` (types/portable.rs lines
386-392): toggle the matching flag and re-render. -/
def PortableDocument.flip (d : PortableDocument) (direction : Noctua.FlipDirection) :
    PortableDocument :=
  match direction with
  | .Horizontal =>
      PortableDocument.rerender
        { d with transform := { d.transform with flip_h := !d.transform.flip_h } }
  | .Vertical =>
      PortableDocument.rerender
        { d with transform := { d.transform with flip_v := !d.transform.flip_v } }

/-- `MultiPage::go_to_page` for `PortableDocument` (types/portable.rs lines
408-419). -/
def PortableDocument.go_to_page (d : PortableDocument) (page : Nat) :
    Except String Unit × PortableDocument :=
  if d.num_pages ≤ page then
    (Except.error "Page out of range", d)
  else
    (Except.ok (), PortableDocument.rerender { d with page_index := page })

/-- `PortableDocument::next_page` (types/portable.rs lines 332-340). -/
def PortableDocument.next_page (d : PortableDocument) : Bool × PortableDocument :=
  if d.page_index + 1 < d.num_pages then
    (true, PortableDocument.rerender { d with page_index := d.page_index + 1 })
  else
    (false, d)

/-- `PortableDocument::prev_page` (types/portable.rs lines 344-352). -/
def PortableDocument.prev_page (d : PortableDocument) : Bool × PortableDocument :=
  if 0 < d.page_index then
    (true, PortableDocument.rerender { d with page_index := d.page_index - 1 })
  else
    (false, d)

/-- The incremental driver of the resumable thumbnail pipeline: call
`generate_thumbnail_page`, feed the returned next page back in, and stop
when it returns `None` (or after `fuel` calls). -/
def PortableDocument.drive_thumbnails (d : PortableDocument) (page : Nat) :
    Nat → PortableDocument
  | 0 => d
  | fuel + 1 =>
      match d.generate_thumbnail_page page with
      | (Option.some next, d1) => d1.drive_thumbnails next fuel
      | (Option.none, d1) => d1

/-- Consistency of a portable document with its renderer: the displayed
buffer is the render of the current page at the current rotation with the
flip post-process applied.  This holds after every successful re-render. -/
def PortableDocument.Consistent (p : PortableDocument) : Prop :=
  ∃ base,
    p.page_render p.page_index p.transform.rotation PDF_RENDER_QUALITY =
      Option.some base ∧
    p.rendered = apply_transform_flips p.transform base

end Dom

-- ============================================================================
-- The operations available on an open domain portable document (for the
-- thumbnail-store invariant)
-- ============================================================================

/-- One mutating operation of the `PortableDocument` interface
(types/portable.rs): thumbnail generation with an arbitrary page argument,
bulk generation, rotation, flips, page navigation, and crop. -/
inductive DomOp
  | gen (page : Nat)
  | genAll
  | rotate (r : Noctua.Rotation)
  | flip (dir : Noctua.FlipDirection)
  | goTo (page : Nat)
  | nextPage
  | prevPage
  | crop (x y w h : Nat)

/-- Apply one operation to a domain portable document. -/
def DomOp.apply (d : Dom.PortableDocument) : DomOp → Dom.PortableDocument
  | .gen page => (d.generate_thumbnail_page page).2
  | .genAll => d.generate_all_thumbnails
  | .rotate r => d.rotate r
  | .flip dir => d.flip dir
  | .goTo page => (d.go_to_page page).2
  | .nextPage => d.next_page.2
  | .prevPage => d.prev_page.2
  | .crop x y w h => (d.crop x y w h).2

/-- Apply a sequence of operations, oldest first. -/
def DomOp.applyAll (d : Dom.PortableDocument) (ops : List DomOp) :
    Dom.PortableDocument :=
  ops.foldl DomOp.apply d

-- ============================================================================
-- Domain tree: dispatcher rotation reconciliation (core/content.rs)
-- ============================================================================

/-- The `Rotation` value `DocumentContent::rotate_cw` (core/content.rs lines
195-211) passes to the live backend through `Transformable::rotate`: the new
rotation mode is computed by `RotationMode::rotate_cw`; a `Standard` result
is delegated directly, while a `Fine` result is normalized by rounding to
the nearest multiple of 90 (Rust `%` is the truncating remainder, modelled
by `Int.tmod`) and matched down to a standard value. -/
def dispatch_rotate_cw_arg (t : Noctua.TransformState) : Noctua.Rotation :=
  match t.rotation.rotate_cw with
  | .Standard rot => rot
  | .Fine deg =>
      let normalized := (Noctua.round_half_away (deg / 90) * 90).tmod 360
      if normalized = 0 then .None
      else if normalized = 90 then .Cw90
      else if normalized = 180 then .Cw180
      else if normalized = 270 then .Cw270
      else .None

/-- The `Rotation` value `DocumentContent::rotate_ccw` (core/content.rs lines
214-230) passes to the live backend. -/
def dispatch_rotate_ccw_arg (t : Noctua.TransformState) : Noctua.Rotation :=
  match t.rotation.rotate_ccw with
  | .Standard rot => rot
  | .Fine deg =>
      let normalized := (Noctua.round_half_away (deg / 90) * 90 + 360).tmod 360
      if normalized = 0 then .None
      else if normalized = 90 then .Cw90
      else if normalized = 180 then .Cw180
      else if normalized = 270 then .Cw270
      else .None

-- ============================================================================
-- Well-formedness predicates for the app-tree backends
-- ============================================================================

/-- Consistency of an app vector document with its renderer: the displayed
buffer and dimensions are the output of `render_document` at the cached
scale and transform.  This holds after `open` and after every successful
re-render. -/
def App.VectorDocument.Consistent (d : App.VectorDocument) : Prop :=
  App.render_document d.rasterize d.current_scale d.transform =
    Option.some (d.rendered, d.width, d.height)

/-- Consistency of an app portable document with its renderer: the displayed
buffer is the render of the current page at the current rotation. -/
def App.PortableDocument.Consistent (d : App.PortableDocument) : Prop :=
  d.page_render d.current_page d.rotation App.PDF_RENDER_SCALE =
    Option.some d.rendered

/-- A well-formed open document, as produced by `open` and preserved by the
operations: the raster transform holds a standard rotation; the vector and
portable rotations lie in `[0, 360)` (they are only ever stepped modulo 360
from 0) and the displayed buffer is consistent with the renderer. -/
def App.DocumentContent.Ok : App.DocumentContent → Prop
  | .Raster doc => ∃ r, doc.transform.rotation = .Standard r
  | .Vector doc =>
      0 ≤ doc.transform.rotation ∧ doc.transform.rotation < 360 ∧ doc.Consistent
  | .Portable doc => 0 ≤ doc.rotation ∧ doc.rotation < 360 ∧ doc.Consistent

/-- Well-formedness needed by the double-flip property: only the vector
backend re-derives its buffer from the scene on flip, so only it needs
renderer consistency. -/
def App.DocumentContent.FlipOk : App.DocumentContent → Prop
  | .Raster _ => True
  | .Vector doc => doc.Consistent
  | .Portable _ => True

-- ============================================================================
-- Concrete sample documents used by the witness theorems
-- ============================================================================

/-- A concrete 3x2 pixel buffer. -/
def sample_img : Noctua.Img := ⟨3, 2, fun x y => x + 3 * y⟩

/-- A concrete raster document over `sample_img`. -/
def sample_raster : App.RasterDocument :=
  ⟨sample_img, 3, 2, Noctua.TransformState.default, sample_img⟩

/-- A concrete five-page domain portable document whose page renders always
succeed, with no thumbnail store yet. -/
def sample_dom : Dom.PortableDocument :=
  ⟨fun _ _ _ => Option.some sample_img, 5, 0, Noctua.TransformState.default,
    sample_img, sample_img, Option.none⟩

/-- A concrete vector document cached at scale 1 whose rasterization always
succeeds. -/
def sample_vector : App.VectorDocument :=
  ⟨fun _ => Option.some sample_img, 3, 2, 1, App.VectorTransform.default,
    sample_img, sample_img, 3, 2⟩

/-- A concrete single-page domain portable document whose page renders
always fail (a malformed page). -/
def fail_dom : Dom.PortableDocument :=
  ⟨fun _ _ _ => Option.none, 1, 0, Noctua.TransformState.default,
    sample_img, sample_img, Option.none⟩

/-- A concrete vector document cached at scale 1 whose rasterization always
fails. -/
def fail_vector : App.VectorDocument :=
  ⟨fun _ => Option.none, 3, 2, 1, App.VectorTransform.default,
    sample_img, sample_img, 3, 2⟩

/-- A concrete app portable document over `sample_img` whose page renders
always succeed, positioned at page 0 of 5 with rotation 0. -/
def sample_app_portable : App.PortableDocument :=
  ⟨fun _ _ _ => Option.some sample_img, fun _ => Option.none, 5, 0, 0,
    sample_img, sample_img, Option.none⟩

/-- A concrete operation sequence mixing out-of-order thumbnail requests
with other mutations. -/
def sample_ops : List DomOp :=
  [DomOp.gen 3, DomOp.gen 0, DomOp.rotate .Cw90, DomOp.genAll,
    DomOp.crop 0 0 1 1, DomOp.gen 7, DomOp.nextPage]

-- ============================================================================
-- General buffer lemmas
-- ============================================================================

theorem Img.Equiv.refl (a : Noctua.Img) : a.Equiv a :=
  ⟨rfl, rfl, fun _ _ _ _ => rfl⟩

theorem Img.Equiv.of_eq {a b : Noctua.Img} (h : a = b) : a.Equiv b := by
  subst h; exact Img.Equiv.refl a

/-- Rotating four times by 90 degrees clockwise restores the buffer. -/
theorem rotate90_four_times (i : Noctua.Img) :
    (rotate90 (rotate90 (rotate90 (rotate90 i)))).Equiv i := by
  refine ⟨rfl, rfl, fun x y hx hy => ?_⟩
  simp only [rotate90] at hx hy ⊢
  have h1 : i.height - 1 - (i.height - 1 - y) = y := by omega
  have h2 : i.width - 1 - (i.width - 1 - x) = x := by omega
  rw [h1, h2]

/-- Mirroring columns twice restores the buffer. -/
theorem flip_horizontal_twice (i : Noctua.Img) :
    (flip_horizontal (flip_horizontal i)).Equiv i := by
  refine ⟨rfl, rfl, fun x y hx hy => ?_⟩
  simp only [flip_horizontal] at hx hy ⊢
  have h : i.width - 1 - (i.width - 1 - x) = x := by omega
  rw [h]

/-- Mirroring rows twice restores the buffer. -/
theorem flip_vertical_twice (i : Noctua.Img) :
    (flip_vertical (flip_vertical i)).Equiv i := by
  refine ⟨rfl, rfl, fun x y hx hy => ?_⟩
  simp only [flip_vertical] at hx hy ⊢
  have h : i.height - 1 - (i.height - 1 - y) = y := by omega
  rw [h]

-- ============================================================================
-- C4 — raster crop: strict rejection out of bounds
-- ============================================================================

/-- C4: for the raster backend, every `crop(x, y, w, h)` call with
`x + w` greater than the current image width or `y + h` greater than the
current image height returns an out-of-bounds error, and on that rejection
the pixel buffer, dimensions, transform state and display handle are all
left unchanged (the returned document equals the input document). -/
theorem c4_raster_crop_strict (d : App.RasterDocument) (x y w h : Nat)
    (hoob : x + w > d.document.width ∨ y + h > d.document.height) :
    (d.crop x y w h).1 = Except.error "Crop rectangle out of bounds" ∧
    (d.crop x y w h).2 = d := by
  simp only [App.RasterDocument.crop]
  rw [if_pos hoob]
  exact ⟨rfl, rfl⟩

/-- C4 witness: a concrete out-of-bounds crop on the sample raster document
is rejected and leaves the document unchanged. -/
theorem c4_raster_crop_strict_witness :
    (sample_raster.crop 1 0 3 1).1 = Except.error "Crop rectangle out of bounds" ∧
    (sample_raster.crop 1 0 3 1).2 = sample_raster :=
  c4_raster_crop_strict sample_raster 1 0 3 1 (Or.inl (by decide))

-- ============================================================================
-- C3 — portable crop: x/y bounds-checked, width/height clamped
-- ============================================================================

/-- C3: for every portable-document `crop(x, y, w, h)` call with requested
`w ≥ 1` and `h ≥ 1`: if `x` and `y` are inside the current rendered
dimensions, the crop succeeds and replaces the rendered page with the
sub-region of size `(min w (width - x), min h (height - y))` anchored at
`(x, y)` — oversized width and height are clamped rather than rejected;
if `x ≥ width` or `y ≥ height`, the call fails with an error and the
rendered page is unchanged. -/
theorem c3_portable_crop_clamps (d : Dom.PortableDocument) (x y w h : Nat)
    (hw : 1 ≤ w) (hh : 1 ≤ h) :
    (x < d.rendered.width ∧ y < d.rendered.height →
      (d.crop x y w h).1 = Except.ok () ∧
      (d.crop x y w h).2.rendered.width = min w (d.rendered.width - x) ∧
      (d.crop x y w h).2.rendered.height = min h (d.rendered.height - y) ∧
      ∀ a b, a < min w (d.rendered.width - x) → b < min h (d.rendered.height - y) →
        (d.crop x y w h).2.rendered.pix a b = d.rendered.pix (x + a) (y + b)) ∧
    (d.rendered.width ≤ x ∨ d.rendered.height ≤ y →
      (d.crop x y w h).1 = Except.error "Crop region is outside rendered bounds" ∧
      (d.crop x y w h).2 = d) := by
  constructor
  · rintro ⟨hx, hy⟩
    have hcond : ¬ (d.rendered.width ≤ x ∨ d.rendered.height ≤ y) := by omega
    have hzero : ¬ (min w (d.rendered.width - x) = 0 ∨ min h (d.rendered.height - y) = 0) := by
      omega
    simp only [Dom.PortableDocument.crop]
    rw [if_neg hcond, if_neg hzero]
    refine ⟨rfl, ?_, ?_, ?_⟩
    · simp only [Noctua.crop_imm]
      omega
    · simp only [Noctua.crop_imm]
      omega
    · intro a b ha hb
      simp only [Noctua.crop_imm]
      have hxm : min x d.rendered.width = x := by omega
      have hym : min y d.rendered.height = y := by omega
      rw [hxm, hym]
  · intro hcond
    simp only [Dom.PortableDocument.crop]
    rw [if_pos hcond]
    exact ⟨rfl, rfl⟩

/-- C3 witness: on the sample portable document (rendered 3x2), a crop at
`(1, 0)` with oversized width 5 succeeds with width clamped to 2, and a crop
with `x` out of bounds is rejected. -/
theorem c3_portable_crop_clamps_witness :
    (sample_dom.crop 1 0 5 1).1 = Except.ok () ∧
    (sample_dom.crop 1 0 5 1).2.rendered.width = min 5 (sample_dom.rendered.width - 1) ∧
    (sample_dom.crop 5 0 1 1).1 = Except.error "Crop region is outside rendered bounds" := by
  refine ⟨?_, ?_, ?_⟩
  · exact ((c3_portable_crop_clamps sample_dom 1 0 5 1 (by decide) (by decide)).1
      (by exact ⟨by decide, by decide⟩)).1
  · exact ((c3_portable_crop_clamps sample_dom 1 0 5 1 (by decide) (by decide)).1
      (by exact ⟨by decide, by decide⟩)).2.1
  · exact ((c3_portable_crop_clamps sample_dom 5 0 1 1 (by decide) (by decide)).2
      (Or.inl (by decide))).1

-- ============================================================================
-- C2 — dispatcher rotation reconciliation for fine rotation
-- ============================================================================

/-- For any integer `k`, the standard rotation recovered from
`(k * 90) mod 360` carries exactly that degree value. -/
theorem of_degrees_to_degrees_emod (k : Int) :
    (Noctua.Rotation.of_degrees ((k * 90) % 360)).to_degrees = (k * 90) % 360 := by
  have h90 : (k * 90) % 360 = 90 * (k % 4) := by omega
  have h4 : k % 4 = 0 ∨ k % 4 = 1 ∨ k % 4 = 2 ∨ k % 4 = 3 := by omega
  rw [h90]
  rcases h4 with h | h | h | h <;>
    rw [h] <;> norm_num [Noctua.Rotation.of_degrees, Noctua.Rotation.to_degrees]

/-- C2: when the current rotation mode is `Fine(deg)`, the dispatcher
`rotate_cw` (resp. `rotate_ccw`) delivers to the backend the standard
rotation whose degrees are obtained by rounding `deg` to the nearest
multiple of 90 with ties away from zero, stepping by +90 (resp. -90), and
normalizing into `[0, 360)`; the argument of the backend `rotate` call has
type `Rotation`, so the backend is only ever invoked with a standard value;
in particular a fine rotation of 47 degrees followed by `rotate_cw` delivers
`Cw180` (180 degrees). -/
theorem c2_fine_rotation_reconciliation (t : Noctua.TransformState) (deg : ℚ)
    (ht : t.rotation = .Fine deg) :
    (Noctua.dispatch_rotate_cw_arg t).to_degrees =
      (Noctua.round_half_away (deg / 90) * 90 + 90) % 360 ∧
    (Noctua.dispatch_rotate_ccw_arg t).to_degrees =
      (Noctua.round_half_away (deg / 90) * 90 - 90) % 360 ∧
    (deg = 47 → Noctua.dispatch_rotate_cw_arg t = .Cw180) := by
  refine ⟨?_, ?_, ?_⟩
  · simp only [Noctua.dispatch_rotate_cw_arg, ht, Noctua.RotationMode.rotate_cw]
    have e : Noctua.round_half_away (deg / 90) * 90 + 90 =
        (Noctua.round_half_away (deg / 90) + 1) * 90 := by ring
    rw [e]
    exact of_degrees_to_degrees_emod _
  · simp only [Noctua.dispatch_rotate_ccw_arg, ht, Noctua.RotationMode.rotate_ccw]
    have e : Noctua.round_half_away (deg / 90) * 90 - 90 =
        (Noctua.round_half_away (deg / 90) - 1) * 90 := by ring
    rw [e]
    exact of_degrees_to_degrees_emod _
  · intro h47
    subst h47
    simp only [Noctua.dispatch_rotate_cw_arg, ht, Noctua.RotationMode.rotate_cw]
    have hr : Noctua.round_half_away ((47 : ℚ) / 90) = 1 := by
      rw [Noctua.round_half_away, if_pos (by norm_num : (0 : ℚ) ≤ 47 / 90)]
      rw [show (47 : ℚ) / 90 + 1 / 2 = 46 / 45 by norm_num]
      rw [Int.floor_eq_iff]
      norm_num
    rw [hr]
    decide

/-- C2 witness: at the concrete transform state holding `Fine 47`, the
backend receives 180 degrees clockwise, and the counter-clockwise step
receives 0 degrees. -/
theorem c2_fine_rotation_reconciliation_witness :
    (Noctua.dispatch_rotate_cw_arg ⟨.Fine 47, false, false⟩).to_degrees =
      (Noctua.round_half_away ((47 : ℚ) / 90) * 90 + 90) % 360 ∧
    Noctua.dispatch_rotate_cw_arg ⟨.Fine 47, false, false⟩ = .Cw180 :=
  ⟨(c2_fine_rotation_reconciliation ⟨.Fine 47, false, false⟩ 47 rfl).1,
    (c2_fine_rotation_reconciliation ⟨.Fine 47, false, false⟩ 47 rfl).2.2 rfl⟩

-- ============================================================================
-- C7 — document kind from extension
-- ============================================================================

/-- C7: `DocumentKind::from_path` is a pure function of the case-insensitive
file extension: any two extensions with the same lowercasing classify
identically (given a case-insensitive registry); `pdf` maps to Portable and
`svg` to Vector; any other extension is classified Raster exactly when the
image-format registry recognizes it and yields no kind otherwise; a path
with no extension yields no kind; and with no kind the open flow constructs
no backend, whatever the backend constructors would return. -/
theorem c7_kind_from_extension (registry : String → Bool)
    (hreg : ∀ s, registry s = registry (App.ascii_lowercase s)) :
    (∀ e1 e2 : String, App.ascii_lowercase e1 = App.ascii_lowercase e2 →
      App.DocumentKind.from_path registry (Option.some e1) =
        App.DocumentKind.from_path registry (Option.some e2)) ∧
    (∀ e : String, App.ascii_lowercase e = "pdf" →
      App.DocumentKind.from_path registry (Option.some e) = Option.some .Portable) ∧
    (∀ e : String, App.ascii_lowercase e = "svg" →
      App.DocumentKind.from_path registry (Option.some e) = Option.some .Vector) ∧
    (∀ e : String, App.ascii_lowercase e ≠ "pdf" → App.ascii_lowercase e ≠ "svg" →
      App.DocumentKind.from_path registry (Option.some e) =
        (if registry e then Option.some .Raster else Option.none)) ∧
    App.DocumentKind.from_path registry Option.none = Option.none ∧
    (∀ (B : Type) (construct : App.DocumentKind → Option B) (ext : Option String),
      App.DocumentKind.from_path registry ext = Option.none →
      App.open_document construct registry ext = Option.none) := by
  refine ⟨?_, ?_, ?_, ?_, rfl, ?_⟩
  · intro e1 e2 h
    simp only [App.DocumentKind.from_path]
    rw [hreg e1, hreg e2, h]
  · intro e h
    simp only [App.DocumentKind.from_path]
    rw [if_pos h]
  · intro e h
    simp only [App.DocumentKind.from_path]
    rw [h, if_neg (by decide), if_pos rfl]
  · intro e h1 h2
    simp only [App.DocumentKind.from_path]
    rw [if_neg h1, if_neg h2]
  · intro B construct ext h
    simp only [App.open_document]
    rw [h]

/-- C7 witness: with a concrete case-insensitive registry recognizing every
extension, `PDF` (upper case) classifies as Portable, and with the same
registry an extension-free path yields no kind and constructs no backend. -/
theorem c7_kind_from_extension_witness :
    App.DocumentKind.from_path (fun _ => true) (Option.some "PDF") =
      Option.some .Portable ∧
    App.open_document (fun _ => Option.some ()) (fun _ => true) Option.none =
      Option.none := by
  refine ⟨?_, ?_⟩
  · exact (c7_kind_from_extension (fun _ => true) (fun _ => rfl)).2.1 "PDF" (by decide)
  · exact (c7_kind_from_extension (fun _ => true) (fun _ => rfl)).2.2.2.2.2
      Unit (fun _ => Option.some ()) Option.none rfl

-- ============================================================================
-- C6 — vector render at an unchanged scale is a no-op
-- ============================================================================

/-- C6: when `render_at_scale` is called with a scale within the
floating-point tolerance of the currently cached scale, the call returns
`false` and the whole state — rendered buffer, display handle, dimensions,
and current scale — is unchanged, and nothing is re-derived from the
retained scene: the result is the same whatever rasterizer the document
carries.  In particular, after a call that re-rendered (returned `true`),
an immediately repeated call with the same scale value is such a no-op. -/
theorem c6_vector_same_scale_noop :
    (∀ (d : App.VectorDocument) (scale : ℚ),
      |d.current_scale - scale| < App.f32_eps →
      d.render_at_scale scale = (false, d) ∧
      ∀ g : ℚ → Option Noctua.Img,
        ({ d with rasterize := g } : App.VectorDocument).render_at_scale scale =
          (false, { d with rasterize := g })) ∧
    (∀ (d d1 : App.VectorDocument) (scale : ℚ),
      d.render_at_scale scale = (true, d1) →
      d1.render_at_scale scale = (false, d1)) := by
  have hskip : ∀ (d : App.VectorDocument) (scale : ℚ),
      |d.current_scale - scale| < App.f32_eps →
      d.render_at_scale scale = (false, d) := by
    intro d scale htol
    simp only [App.VectorDocument.render_at_scale]
    rw [if_pos htol]
  refine ⟨fun d scale htol => ⟨hskip d scale htol, fun g => hskip _ scale htol⟩, ?_⟩
  intro d d1 scale h
  by_cases htol : |d.current_scale - scale| < App.f32_eps
  · rw [hskip d scale htol] at h
    exact absurd (congrArg Prod.fst h) (by simp)
  · simp only [App.VectorDocument.render_at_scale] at h
    rw [if_neg htol] at h
    rcases hrd : App.render_document d.rasterize scale d.transform with _ | v
    · rw [hrd] at h
      exact absurd (congrArg Prod.fst h) (by simp)
    · rcases v with ⟨rendered, width, height⟩
      rw [hrd] at h
      have h2 := congrArg Prod.snd h
      simp only at h2
      apply hskip
      rw [← h2]
      simp only [App.f32_eps]
      rw [sub_self, abs_zero]
      norm_num

/-- C6 witness: on a concrete vector document cached at scale 1, a call at
scale 1 is a no-op returning `false` and, after a successful re-render at
scale 2, repeating the call at scale 2 is a no-op. -/
theorem c6_vector_same_scale_noop_witness :
    sample_vector.render_at_scale 1 = (false, sample_vector) ∧
    (sample_vector.render_at_scale 2).2.render_at_scale 2 =
      (false, (sample_vector.render_at_scale 2).2) := by
  constructor
  · exact (c6_vector_same_scale_noop.1 sample_vector 1
      (by norm_num [sample_vector, App.f32_eps])).1
  · have h1 : (sample_vector.render_at_scale 2).1 = true := by
      simp only [App.VectorDocument.render_at_scale]
      rw [if_neg (by norm_num [sample_vector, App.f32_eps])]
      simp [App.render_document, sample_vector, App.VectorTransform.default]
    have h2 : sample_vector.render_at_scale 2 =
        ((sample_vector.render_at_scale 2).1, (sample_vector.render_at_scale 2).2) := rfl
    rw [h1] at h2
    exact c6_vector_same_scale_noop.2 sample_vector _ 2 h2
-- ============================================================================
-- C1 — resumable thumbnail generation
-- ============================================================================

/-- One generation step at the current store length `k < page_count` appends
exactly the handle for page `k` at index `k` (lazily initializing the
store), changes nothing else, and returns the next page to generate. -/
theorem dom_gen_at_len (d : Dom.PortableDocument) (k : Nat)
    (hk : d.thumbnails_loaded = k) (hlt : k < d.num_pages) :
    ∃ c0, (d.init_thumbnail_cache).thumbnail_cache = Option.some c0 ∧
      c0.length = k ∧
      (d.generate_thumbnail_page k).2 =
        { d with
          thumbnail_cache :=
            Option.some (c0 ++ [d.load_or_generate_thumbnail k]) } ∧
      (d.generate_thumbnail_page k).1 =
        (if k + 1 < d.num_pages then Option.some (k + 1) else Option.none) := by
  cases h : d.thumbnail_cache with
  | none =>
      have hk0 : k = 0 := by
        simp [Dom.PortableDocument.thumbnails_loaded, h] at hk
        omega
      subst hk0
      refine ⟨[], ?_, rfl, ?_, ?_⟩
      · simp [Dom.PortableDocument.init_thumbnail_cache, h]
      · simp [Dom.PortableDocument.generate_thumbnail_page,
          Dom.PortableDocument.init_thumbnail_cache, h, hlt,
          Dom.PortableDocument.load_or_generate_thumbnail]
      · simp [Dom.PortableDocument.generate_thumbnail_page,
          Dom.PortableDocument.init_thumbnail_cache, h, hlt]
  | some c =>
      have hlen : c.length = k := by
        simpa [Dom.PortableDocument.thumbnails_loaded, h] using hk
      have hinit : d.init_thumbnail_cache = d := by
        simp [Dom.PortableDocument.init_thumbnail_cache, h]
      refine ⟨c, by rw [hinit, h], hlen, ?_, ?_⟩
      · simp [Dom.PortableDocument.generate_thumbnail_page, hinit, h, hlen,
          hlt]
      · simp [Dom.PortableDocument.generate_thumbnail_page, hinit, h, hlen,
          hlt]

/-- Driving the primitive from a page equal to the store length with exactly
enough fuel to reach the end: each call appends one thumbnail, so the store
length grows by the number of calls, and the store exists once at least one
call was made. -/
theorem dom_drive_spec (fuel : Nat) :
    ∀ (d : Dom.PortableDocument) (page : Nat),
      d.thumbnails_loaded = page → page + fuel ≤ d.num_pages →
      (d.drive_thumbnails page fuel).num_pages = d.num_pages ∧
      (d.drive_thumbnails page fuel).thumbnails_loaded = page + fuel ∧
      (0 < fuel →
        ((d.drive_thumbnails page fuel).thumbnail_cache).isSome = true) := by
  induction fuel with
  | zero =>
      intro d page hk hle
      refine ⟨rfl, ?_, fun h => absurd h (by omega)⟩
      show d.thumbnails_loaded = page + 0
      omega
  | succ fuel ih =>
      intro d page hk hle
      have hlt : page < d.num_pages := by omega
      obtain ⟨c0, hc, hlen, hsnd, hfst⟩ := dom_gen_at_len d page hk hlt
      have hpair : d.generate_thumbnail_page page =
          ((if page + 1 < d.num_pages then Option.some (page + 1) else Option.none),
            (d.generate_thumbnail_page page).2) := by
        rw [← hfst]
      set D1 := (d.generate_thumbnail_page page).2 with hD1
      have hD1num : D1.num_pages = d.num_pages := by rw [hsnd]
      have hD1loaded : D1.thumbnails_loaded = page + 1 := by
        rw [hsnd]
        simp [Dom.PortableDocument.thumbnails_loaded, hlen]
      have hD1some : D1.thumbnail_cache.isSome = true := by
        rw [hsnd]; rfl
      by_cases hnext : page + 1 < d.num_pages
      · have hstep : d.drive_thumbnails page (fuel + 1) =
            D1.drive_thumbnails (page + 1) fuel := by
          rw [Dom.PortableDocument.drive_thumbnails, hpair, if_pos hnext]
        obtain ⟨ihn, ihl, ihs⟩ :=
          ih D1 (page + 1) hD1loaded (by omega)
        refine ⟨?_, ?_, ?_⟩
        · rw [hstep, ihn, hD1num]
        · rw [hstep, ihl]; omega
        · intro _
          rcases Nat.eq_zero_or_pos fuel with hf | hf
          · subst hf
            rw [hstep]
            exact hD1some
          · rw [hstep]
            exact ihs hf
      · have hfuel : fuel = 0 := by omega
        subst hfuel
        have hstep : d.drive_thumbnails page 1 = D1 := by
          rw [Dom.PortableDocument.drive_thumbnails, hpair, if_neg hnext]
        refine ⟨?_, ?_, fun _ => ?_⟩
        · rw [hstep, hD1num]
        · rw [hstep, hD1loaded]
        · rw [hstep]; exact hD1some

/-- The readiness test, unfolded. -/
theorem dom_ready_iff (d : Dom.PortableDocument) :
    d.thumbnails_ready = true ↔
      d.thumbnail_cache.isSome = true ∧ d.num_pages ≤ d.thumbnails_loaded := by
  cases h : d.thumbnail_cache <;>
    simp [Dom.PortableDocument.thumbnails_ready,
      Dom.PortableDocument.thumbnails_loaded, h]

/-- C1: on an open portable document with page count `N` whose thumbnail
store currently has length `k < N`, `generate_thumbnail_page(k)` appends
exactly one thumbnail handle (the one for page `k`) at index `k`, lazily
initializing the store, and returns `Some(k + 1)` when `k + 1 < N` and
`None` when `k + 1 = N`; consequently driving the primitive from page 0,
feeding each returned value back in, generates thumbnails one per call in
strictly increasing page order, with `thumbnails_ready()` false before the
final call and true after it. -/
theorem c1_thumbnail_generation (d : Dom.PortableDocument) (k : Nat)
    (hk : d.thumbnails_loaded = k) (hlt : k < d.num_pages) :
    (∃ c0, (d.init_thumbnail_cache).thumbnail_cache = Option.some c0 ∧
      c0.length = k ∧
      (d.generate_thumbnail_page k).2.thumbnail_cache =
        Option.some (c0 ++ [d.load_or_generate_thumbnail k]) ∧
      (d.generate_thumbnail_page k).2.thumbnails_loaded = k + 1 ∧
      (d.generate_thumbnail_page k).1 =
        (if k + 1 < d.num_pages then Option.some (k + 1) else Option.none)) ∧
    (k = 0 → ∀ j, j ≤ d.num_pages →
      (d.drive_thumbnails 0 j).thumbnails_loaded = j ∧
      ((d.drive_thumbnails 0 j).thumbnails_ready = true ↔ j = d.num_pages)) := by
  constructor
  · obtain ⟨c0, hc, hlen, hsnd, hfst⟩ := dom_gen_at_len d k hk hlt
    refine ⟨c0, hc, hlen, ?_, ?_, hfst⟩
    · rw [hsnd]
    · rw [hsnd]
      simp [Dom.PortableDocument.thumbnails_loaded, hlen]
  · intro hk0 j hj
    subst hk0
    obtain ⟨hn, hl, hs⟩ := dom_drive_spec j d 0 hk (by omega)
    refine ⟨by rw [hl]; omega, ?_⟩
    rw [dom_ready_iff, hn, hl]
    rcases Nat.eq_zero_or_pos j with hj0 | hj0
    · subst hj0
      constructor
      · rintro ⟨-, habs⟩
        omega
      · intro habs
        omega
    · constructor
      · rintro ⟨-, hge⟩
        omega
      · intro heq
        exact ⟨hs hj0, by omega⟩

/-- C1 witness: on the concrete five-page document with an empty store, the
first call appends the page-0 thumbnail and returns `Some 1`, and driving
for 4 calls leaves readiness false while driving for 5 calls reaches
readiness. -/
theorem c1_thumbnail_generation_witness :
    (sample_dom.generate_thumbnail_page 0).2.thumbnails_loaded = 0 + 1 ∧
    (sample_dom.generate_thumbnail_page 0).1 =
      (if 0 + 1 < sample_dom.num_pages then Option.some (0 + 1) else Option.none) ∧
    (sample_dom.drive_thumbnails 0 4).thumbnails_loaded = 4 ∧
    ((sample_dom.drive_thumbnails 0 4).thumbnails_ready = true ↔ 4 = sample_dom.num_pages) ∧
    ((sample_dom.drive_thumbnails 0 5).thumbnails_ready = true ↔ 5 = sample_dom.num_pages) := by
  have h := c1_thumbnail_generation sample_dom 0 rfl (by decide)
  obtain ⟨⟨c0, -, -, -, hloaded, hfst⟩, hdrive⟩ := h
  exact ⟨hloaded, hfst, (hdrive rfl 4 (by decide)).1, (hdrive rfl 4 (by decide)).2,
    (hdrive rfl 5 (by decide)).2⟩
-- ============================================================================
-- C10 — thumbnail-store invariant under arbitrary operation sequences
-- ============================================================================

/-- The store length depends only on the store. -/
theorem dom_loaded_congr (d e : Dom.PortableDocument)
    (h : e.thumbnail_cache = d.thumbnail_cache) :
    e.thumbnails_loaded = d.thumbnails_loaded := by
  unfold Dom.PortableDocument.thumbnails_loaded
  rw [h]

/-- Lazy initialization preserves the page count and the store length, and
always leaves a present store. -/
theorem dom_init_facts (d : Dom.PortableDocument) :
    (d.init_thumbnail_cache).num_pages = d.num_pages ∧
    (d.init_thumbnail_cache).thumbnails_loaded = d.thumbnails_loaded ∧
    (d.init_thumbnail_cache).thumbnail_cache.isSome = true := by
  cases h : d.thumbnail_cache <;>
    simp [Dom.PortableDocument.init_thumbnail_cache,
      Dom.PortableDocument.thumbnails_loaded, h]

/-- A generation step with an arbitrary page argument either only performs
the lazy initialization, or appends one handle under the guard
`store length ≤ page < page_count`. -/
theorem dom_gen_cases (d : Dom.PortableDocument) (page : Nat) :
    (d.generate_thumbnail_page page).2 = d.init_thumbnail_cache ∨
    (∃ c0, (d.init_thumbnail_cache).thumbnail_cache = Option.some c0 ∧
      c0.length ≤ page ∧ page < d.num_pages ∧
      (d.generate_thumbnail_page page).2 =
        { d with
          thumbnail_cache :=
            Option.some (c0 ++ [d.load_or_generate_thumbnail page]) }) := by
  cases h : d.thumbnail_cache with
  | none =>
      by_cases hp : page < d.num_pages
      · refine Or.inr ⟨[], ?_, by simp, hp, ?_⟩
        · simp [Dom.PortableDocument.init_thumbnail_cache, h]
        · simp [Dom.PortableDocument.generate_thumbnail_page,
            Dom.PortableDocument.init_thumbnail_cache, h, hp,
            Dom.PortableDocument.load_or_generate_thumbnail]
      · refine Or.inl ?_
        simp [Dom.PortableDocument.generate_thumbnail_page,
          Dom.PortableDocument.init_thumbnail_cache, h, hp]
  | some c =>
      have hinit : d.init_thumbnail_cache = d := by
        simp [Dom.PortableDocument.init_thumbnail_cache, h]
      by_cases hcnd : c.length ≤ page ∧ page < d.num_pages
      · refine Or.inr ⟨c, by rw [hinit, h], hcnd.1, hcnd.2, ?_⟩
        simp [Dom.PortableDocument.generate_thumbnail_page, hinit, h, hcnd]
      · refine Or.inl ?_
        rw [hinit]
        simp [Dom.PortableDocument.generate_thumbnail_page, hinit, h, hcnd]

/-- The facts about one generation step needed by the invariant: page count
unchanged, store length never decreasing, store length bounded by
`max (previous length) page_count`, store present afterwards. -/
theorem dom_gen_step_spec (d : Dom.PortableDocument) (page : Nat) :
    (d.generate_thumbnail_page page).2.num_pages = d.num_pages ∧
    d.thumbnails_loaded ≤ (d.generate_thumbnail_page page).2.thumbnails_loaded ∧
    (d.generate_thumbnail_page page).2.thumbnails_loaded ≤
      max d.thumbnails_loaded d.num_pages ∧
    (d.generate_thumbnail_page page).2.thumbnail_cache.isSome = true := by
  obtain ⟨i1, i2, i3⟩ := dom_init_facts d
  rcases dom_gen_cases d page with h | ⟨c0, hc, hle, hlt, h⟩
  · rw [h]
    exact ⟨i1, by rw [i2], by rw [i2]; omega, i3⟩
  · have hc0 : c0.length = d.thumbnails_loaded := by
      rw [← i2]
      simp [Dom.PortableDocument.thumbnails_loaded, hc]
    have hload : (d.generate_thumbnail_page page).2.thumbnails_loaded =
        c0.length + 1 := by
      rw [h]
      simp [Dom.PortableDocument.thumbnails_loaded]
    have hnum : (d.generate_thumbnail_page page).2.num_pages = d.num_pages := by
      rw [h]
    have hsome : (d.generate_thumbnail_page page).2.thumbnail_cache.isSome = true := by
      rw [h]; rfl
    exact ⟨hnum, by omega, by omega, hsome⟩

/-- Folding generation steps over any page list: page count unchanged, store
length monotone and bounded, store presence preserved. -/
theorem dom_genfold_spec (pages : List Nat) :
    ∀ d : Dom.PortableDocument,
      ((pages.foldl (fun acc page => (acc.generate_thumbnail_page page).2) d).num_pages
        = d.num_pages) ∧
      (d.thumbnails_loaded ≤
        (pages.foldl (fun acc page => (acc.generate_thumbnail_page page).2) d).thumbnails_loaded) ∧
      ((pages.foldl (fun acc page => (acc.generate_thumbnail_page page).2) d).thumbnails_loaded
        ≤ max d.thumbnails_loaded d.num_pages) ∧
      (d.thumbnail_cache.isSome = true →
        (pages.foldl (fun acc page => (acc.generate_thumbnail_page page).2) d).thumbnail_cache.isSome
          = true) := by
  induction pages with
  | nil =>
      intro d
      exact ⟨rfl, Nat.le_refl _, Nat.le_max_left _ _, fun h => h⟩
  | cons p ps ih =>
      intro d
      obtain ⟨g1, g2, g3, g4⟩ := dom_gen_step_spec d p
      obtain ⟨i1, i2, i3, i4⟩ := ih ((d.generate_thumbnail_page p).2)
      simp only [List.foldl_cons]
      refine ⟨i1.trans g1, g2.trans i2, ?_, fun _ => i4 g4⟩
      rw [g1] at i3
      omega

/-- One operation of the portable interface: page count unchanged, store
length monotone and bounded by `max (previous length) page_count`, store
presence preserved. -/
theorem dom_step_spec (d : Dom.PortableDocument) (op : DomOp) :
    (DomOp.apply d op).num_pages = d.num_pages ∧
    d.thumbnails_loaded ≤ (DomOp.apply d op).thumbnails_loaded ∧
    (DomOp.apply d op).thumbnails_loaded ≤ max d.thumbnails_loaded d.num_pages ∧
    (d.thumbnail_cache.isSome = true →
      (DomOp.apply d op).thumbnail_cache.isSome = true) := by
  have hrer : ∀ e : Dom.PortableDocument,
      (e.rerender).thumbnail_cache = e.thumbnail_cache ∧
      (e.rerender).num_pages = e.num_pages := by
    intro e
    unfold Dom.PortableDocument.rerender
    cases h : e.page_render e.page_index e.transform.rotation Dom.PDF_RENDER_QUALITY <;>
      simp
  have huntouched :
      (DomOp.apply d op).thumbnail_cache = d.thumbnail_cache →
      (DomOp.apply d op).num_pages = d.num_pages →
      (DomOp.apply d op).num_pages = d.num_pages ∧
      d.thumbnails_loaded ≤ (DomOp.apply d op).thumbnails_loaded ∧
      (DomOp.apply d op).thumbnails_loaded ≤ max d.thumbnails_loaded d.num_pages ∧
      (d.thumbnail_cache.isSome = true →
        (DomOp.apply d op).thumbnail_cache.isSome = true) := by
    intro hc hn
    have hl := dom_loaded_congr d (DomOp.apply d op) hc
    exact ⟨hn, by omega, by omega, fun h => by rw [hc]; exact h⟩
  cases op with
  | gen page =>
      simp only [DomOp.apply]
      obtain ⟨g1, g2, g3, g4⟩ := dom_gen_step_spec d page
      exact ⟨g1, g2, g3, fun _ => g4⟩
  | genAll =>
      simp only [DomOp.apply, Dom.PortableDocument.generate_all_thumbnails]
      by_cases hr : d.thumbnails_ready = true
      · rw [if_pos hr]
        exact ⟨rfl, Nat.le_refl _, Nat.le_max_left _ _, fun h => h⟩
      · rw [if_neg hr]
        obtain ⟨i1, i2, i3⟩ := dom_init_facts d
        obtain ⟨f1, f2, f3, f4⟩ :=
          dom_genfold_spec (List.range d.num_pages) d.init_thumbnail_cache
        rw [i1] at f1
        rw [i2] at f2 f3
        rw [i1] at f3
        exact ⟨f1, f2, f3, fun _ => f4 i3⟩
  | rotate r =>
      apply huntouched
      · simp only [DomOp.apply, Dom.PortableDocument.rotate]
        exact (hrer _).1
      · simp only [DomOp.apply, Dom.PortableDocument.rotate]
        exact (hrer _).2
  | flip dir =>
      cases dir
      · apply huntouched
        · simp only [DomOp.apply, Dom.PortableDocument.flip]
          exact (hrer _).1
        · simp only [DomOp.apply, Dom.PortableDocument.flip]
          exact (hrer _).2
      · apply huntouched
        · simp only [DomOp.apply, Dom.PortableDocument.flip]
          exact (hrer _).1
        · simp only [DomOp.apply, Dom.PortableDocument.flip]
          exact (hrer _).2
  | goTo page =>
      apply huntouched <;>
        · simp only [DomOp.apply, Dom.PortableDocument.go_to_page]
          by_cases hp : d.num_pages ≤ page
          · rw [if_pos hp]
          · rw [if_neg hp]
            first
            | exact (hrer _).1
            | exact (hrer _).2
  | nextPage =>
      apply huntouched <;>
        · simp only [DomOp.apply, Dom.PortableDocument.next_page]
          by_cases hp : d.page_index + 1 < d.num_pages
          · rw [if_pos hp]
            first
            | exact (hrer _).1
            | exact (hrer _).2
          · rw [if_neg hp]
  | prevPage =>
      apply huntouched <;>
        · simp only [DomOp.apply, Dom.PortableDocument.prev_page]
          by_cases hp : 0 < d.page_index
          · rw [if_pos hp]
            first
            | exact (hrer _).1
            | exact (hrer _).2
          · rw [if_neg hp]
  | crop x y w h =>
      apply huntouched <;>
        · simp only [DomOp.apply, Dom.PortableDocument.crop]
          by_cases h1 : d.rendered.width ≤ x ∨ d.rendered.height ≤ y
          · rw [if_pos h1]
          · rw [if_neg h1]
            by_cases h2 : min w (d.rendered.width - x) = 0 ∨
                min h (d.rendered.height - y) = 0
            · rw [if_pos h2]
            · rw [if_neg h2]

/-- Sequences of operations: page count unchanged, store length monotone and
bounded, store presence preserved. -/
theorem dom_applyAll_spec (ops : List DomOp) :
    ∀ d : Dom.PortableDocument,
      (DomOp.applyAll d ops).num_pages = d.num_pages ∧
      d.thumbnails_loaded ≤ (DomOp.applyAll d ops).thumbnails_loaded ∧
      (DomOp.applyAll d ops).thumbnails_loaded ≤
        max d.thumbnails_loaded d.num_pages ∧
      (d.thumbnail_cache.isSome = true →
        (DomOp.applyAll d ops).thumbnail_cache.isSome = true) := by
  induction ops with
  | nil =>
      intro d
      exact ⟨rfl, Nat.le_refl _, Nat.le_max_left _ _, fun h => h⟩
  | cons op ops ih =>
      intro d
      obtain ⟨s1, s2, s3, s4⟩ := dom_step_spec d op
      obtain ⟨i1, i2, i3, i4⟩ := ih (DomOp.apply d op)
      have hcons : DomOp.applyAll d (op :: ops) =
          DomOp.applyAll (DomOp.apply d op) ops := rfl
      rw [hcons]
      rw [s1] at i3
      refine ⟨i1.trans s1, s2.trans i2, ?_, fun h => i4 (s4 h)⟩
      omega

/-- C10: on every open portable document whose store length is at most the
page count, after any sequence of operations — including
`generate_thumbnail_page` with arbitrary out-of-order page arguments — the
store length still never exceeds the (unchanged) page count, an initialized
store never reverts to the uninitialized state, and `thumbnails_ready()` is
monotone: once true, it stays true. -/
theorem c10_thumbnail_store_invariant (d : Dom.PortableDocument)
    (ops : List DomOp) (hlen : d.thumbnails_loaded ≤ d.num_pages) :
    (DomOp.applyAll d ops).num_pages = d.num_pages ∧
    (DomOp.applyAll d ops).thumbnails_loaded ≤ d.num_pages ∧
    (d.thumbnail_cache.isSome = true →
      (DomOp.applyAll d ops).thumbnail_cache.isSome = true) ∧
    (d.thumbnails_ready = true →
      (DomOp.applyAll d ops).thumbnails_ready = true) := by
  obtain ⟨a1, a2, a3, a4⟩ := dom_applyAll_spec ops d
  refine ⟨a1, by omega, a4, ?_⟩
  intro hready
  obtain ⟨hs, hge⟩ := (dom_ready_iff d).mp hready
  exact (dom_ready_iff _).mpr ⟨a4 hs, by omega⟩

/-- C10 witness: on the concrete five-page document, a mixed concrete
operation sequence keeps the page count at 5 and the store length at most
5. -/
theorem c10_thumbnail_store_invariant_witness :
    (DomOp.applyAll sample_dom sample_ops).num_pages = sample_dom.num_pages ∧
    (DomOp.applyAll sample_dom sample_ops).thumbnails_loaded ≤ sample_dom.num_pages := by
  have h := c10_thumbnail_store_invariant sample_dom sample_ops (by decide)
  exact ⟨h.1, h.2.1⟩

-- ============================================================================
-- C5 — render failure during a mutation: what is and is not retained
-- ============================================================================

/-- C5 counterexample: on a concrete portable document whose page render
fails, `rotate` does not roll the mutation back and surfaces no error: the
rotation state advances to the new value while the buffer is retained, so
the document after the failed operation differs from the document before
it — the mutation is applied in part, contradicting the claim that it is
never partially applied (and `Transformable::rotate` returns no error
channel at all). -/
theorem c5_render_failure_counterexample :
    fail_dom.page_render fail_dom.page_index
      (Noctua.RotationMode.Standard .Cw90) Dom.PDF_RENDER_QUALITY = Option.none ∧
    fail_dom.transform.rotation = .Standard .None ∧
    (fail_dom.rotate .Cw90).transform.rotation = .Standard .Cw90 ∧
    (fail_dom.rotate .Cw90).rendered = fail_dom.rendered ∧
    fail_dom.rotate .Cw90 ≠ fail_dom := by
  have hrot : fail_dom.rotate .Cw90 =
      { fail_dom with
        transform := { fail_dom.transform with rotation := .Standard .Cw90 } } := by
    rfl
  refine ⟨rfl, rfl, by rw [hrot], by rw [hrot], ?_⟩
  intro heq
  have h2 : (fail_dom.rotate .Cw90).transform.rotation =
      fail_dom.transform.rotation := by rw [heq]
  rw [hrot] at h2
  simp [fail_dom, Noctua.TransformState.default] at h2

/-- C5 amended: when a whole-document re-render fails during a rotate, a
flip or a page-display operation on the portable backend, or during a
rotate, a flip or a scale change on the vector backend, the previously
displayed state — rendered buffer, display handle, dimensions, and cached
scale — is retained unchanged; but the failure is only logged, not
surfaced (portable and vector rotate and flip have no error channel,
`go_to_page` still returns Ok, and vector `render_at_scale` reports it only
as a `false` return value), and the already-performed transform-state
update (rotation step or flip-flag toggle) or page-cursor update is kept
rather than rolled back, so the mutation is partially applied. -/
theorem c5_render_failure_amended :
    (∀ (p : Dom.PortableDocument) (r : Noctua.Rotation),
      p.page_render p.page_index (.Standard r) Dom.PDF_RENDER_QUALITY =
        Option.none →
      (p.rotate r).rendered = p.rendered ∧
      (p.rotate r).handle = p.handle ∧
      (p.rotate r).dimensions = p.dimensions ∧
      (p.rotate r).transform.rotation = .Standard r ∧
      (p.rotate r).transform.flip_h = p.transform.flip_h ∧
      (p.rotate r).transform.flip_v = p.transform.flip_v) ∧
    (∀ (p : Dom.PortableDocument) (dir : Noctua.FlipDirection),
      p.page_render p.page_index p.transform.rotation Dom.PDF_RENDER_QUALITY =
        Option.none →
      (p.flip dir).rendered = p.rendered ∧
      (p.flip dir).handle = p.handle ∧
      (p.flip dir).dimensions = p.dimensions ∧
      (p.flip dir).transform =
        (match dir with
          | .Horizontal => { p.transform with flip_h := !p.transform.flip_h }
          | .Vertical => { p.transform with flip_v := !p.transform.flip_v })) ∧
    (∀ (p : Dom.PortableDocument) (page : Nat),
      page < p.num_pages →
      p.page_render page p.transform.rotation Dom.PDF_RENDER_QUALITY =
        Option.none →
      (p.go_to_page page).1 = Except.ok () ∧
      (p.go_to_page page).2.rendered = p.rendered ∧
      (p.go_to_page page).2.handle = p.handle ∧
      (p.go_to_page page).2.page_index = page) ∧
    (∀ (v : App.VectorDocument) (scale : ℚ),
      App.render_document v.rasterize scale v.transform = Option.none →
      v.render_at_scale scale = (false, v)) ∧
    (∀ v : App.VectorDocument,
      App.render_document v.rasterize v.current_scale
          { v.transform with rotation := (v.transform.rotation + 90) % 360 } =
        Option.none →
      (v.rotate_cw).rendered = v.rendered ∧
      (v.rotate_cw).handle = v.handle ∧
      (v.rotate_cw).dimensions = v.dimensions ∧
      (v.rotate_cw).current_scale = v.current_scale ∧
      (v.rotate_cw).transform =
        { v.transform with rotation := (v.transform.rotation + 90) % 360 }) ∧
    (∀ v : App.VectorDocument,
      App.render_document v.rasterize v.current_scale
          { v.transform with flip_h := !v.transform.flip_h } = Option.none →
      (v.flip_horizontal).rendered = v.rendered ∧
      (v.flip_horizontal).handle = v.handle ∧
      (v.flip_horizontal).dimensions = v.dimensions ∧
      (v.flip_horizontal).current_scale = v.current_scale ∧
      (v.flip_horizontal).transform =
        { v.transform with flip_h := !v.transform.flip_h }) ∧
    (∀ v : App.VectorDocument,
      App.render_document v.rasterize v.current_scale
          { v.transform with flip_v := !v.transform.flip_v } = Option.none →
      (v.flip_vertical).rendered = v.rendered ∧
      (v.flip_vertical).handle = v.handle ∧
      (v.flip_vertical).dimensions = v.dimensions ∧
      (v.flip_vertical).current_scale = v.current_scale ∧
      (v.flip_vertical).transform =
        { v.transform with flip_v := !v.transform.flip_v }) := by
  refine ⟨?_, ?_, ?_, ?_, ?_, ?_, ?_⟩
  · intro p r hfail
    have hupd : p.rotate r =
        { p with transform := { p.transform with rotation := .Standard r } } := by
      unfold Dom.PortableDocument.rotate Dom.PortableDocument.rerender
      dsimp only
      rw [hfail]
    rw [hupd]
    exact ⟨rfl, rfl, rfl, rfl, rfl, rfl⟩
  · intro p dir hfail
    cases dir
    · have hupd : p.flip .Horizontal =
          { p with transform := { p.transform with flip_h := !p.transform.flip_h } } := by
        unfold Dom.PortableDocument.flip Dom.PortableDocument.rerender
        dsimp only
        rw [hfail]
      rw [hupd]
      exact ⟨rfl, rfl, rfl, rfl⟩
    · have hupd : p.flip .Vertical =
          { p with transform := { p.transform with flip_v := !p.transform.flip_v } } := by
        unfold Dom.PortableDocument.flip Dom.PortableDocument.rerender
        dsimp only
        rw [hfail]
      rw [hupd]
      exact ⟨rfl, rfl, rfl, rfl⟩
  · intro p page hlt hfail
    have hcond : ¬ p.num_pages ≤ page := by omega
    have hupd : p.go_to_page page =
        (Except.ok (), { p with page_index := page }) := by
      unfold Dom.PortableDocument.go_to_page Dom.PortableDocument.rerender
      rw [if_neg hcond]
      dsimp only
      rw [hfail]
    rw [hupd]
    exact ⟨rfl, rfl, rfl, rfl⟩
  · intro v scale hfail
    unfold App.VectorDocument.render_at_scale
    by_cases htol : |v.current_scale - scale| < App.f32_eps
    · rw [if_pos htol]
    · rw [if_neg htol, hfail]
  · intro v hfail
    have hupd : v.rotate_cw =
        { v with transform :=
            { v.transform with rotation := (v.transform.rotation + 90) % 360 } } := by
      unfold App.VectorDocument.rotate_cw App.VectorDocument.rerender
      dsimp only
      rw [hfail]
    rw [hupd]
    exact ⟨rfl, rfl, rfl, rfl, rfl⟩
  · intro v hfail
    have hupd : v.flip_horizontal =
        { v with transform :=
            { v.transform with flip_h := !v.transform.flip_h } } := by
      unfold App.VectorDocument.flip_horizontal App.VectorDocument.rerender
      dsimp only
      rw [hfail]
    rw [hupd]
    exact ⟨rfl, rfl, rfl, rfl, rfl⟩
  · intro v hfail
    have hupd : v.flip_vertical =
        { v with transform :=
            { v.transform with flip_v := !v.transform.flip_v } } := by
      unfold App.VectorDocument.flip_vertical App.VectorDocument.rerender
      dsimp only
      rw [hfail]
    rw [hupd]
    exact ⟨rfl, rfl, rfl, rfl, rfl⟩

/-- C5 amended witness: at the concrete documents whose renders fail, rotate
and flip keep the buffer (with the flag still toggled), `go_to_page`
returns Ok, the vector scale change returns `false` with the state
unchanged, and a vector rotate or flip keeps the buffer while stepping the
transform. -/
theorem c5_render_failure_amended_witness :
    (fail_dom.rotate .Cw90).rendered = fail_dom.rendered ∧
    (fail_dom.flip .Horizontal).rendered = fail_dom.rendered ∧
    (fail_dom.flip .Horizontal).transform =
      { fail_dom.transform with flip_h := !fail_dom.transform.flip_h } ∧
    (fail_dom.go_to_page 0).1 = Except.ok () ∧
    fail_vector.render_at_scale 2 = (false, fail_vector) ∧
    (fail_vector.rotate_cw).rendered = fail_vector.rendered ∧
    (fail_vector.flip_horizontal).rendered = fail_vector.rendered ∧
    (fail_vector.flip_vertical).rendered = fail_vector.rendered := by
  refine ⟨(c5_render_failure_amended.1 fail_dom .Cw90 rfl).1,
    (c5_render_failure_amended.2.1 fail_dom .Horizontal rfl).1,
    (c5_render_failure_amended.2.1 fail_dom .Horizontal rfl).2.2.2,
    (c5_render_failure_amended.2.2.1 fail_dom 0 (by decide) rfl).1,
    c5_render_failure_amended.2.2.2.1 fail_vector 2 rfl,
    (c5_render_failure_amended.2.2.2.2.1 fail_vector rfl).1,
    (c5_render_failure_amended.2.2.2.2.2.1 fail_vector rfl).1,
    (c5_render_failure_amended.2.2.2.2.2.2 fail_vector rfl).1⟩

-- ============================================================================
-- C8 — four clockwise rotations restore dimensions and pixel content
-- ============================================================================

/-- Extensionality for the vector transform record. -/
theorem vt_ext (a b : App.VectorTransform) (h1 : a.rotation = b.rotation)
    (h2 : a.flip_h = b.flip_h) (h3 : a.flip_v = b.flip_v) : a = b := by
  cases a; cases b; simp_all

/-- Extensionality for the transform-state record. -/
theorem ts_ext (a b : Noctua.TransformState) (h1 : a.rotation = b.rotation)
    (h2 : a.flip_h = b.flip_h) (h3 : a.flip_v = b.flip_v) : a = b := by
  cases a; cases b; simp_all

/-- One clockwise raster step under a standard rotation: the buffer is
rotated 90 degrees in place, the target rotation recorded, the handle
rebuilt. -/
theorem raster_cw_step (doc : App.RasterDocument) (cur next : Noctua.Rotation)
    (hr : doc.transform.rotation = .Standard cur)
    (hnext : Noctua.Rotation.of_degrees ((cur.to_degrees + 90) % 360) = next)
    (hdiff : (next.to_degrees - cur.to_degrees + 360).tmod 360 = 90) :
    doc.rotate_cw =
      { doc with
        document := Noctua.rotate90 doc.document
        transform := { doc.transform with rotation := .Standard next }
        handle := Noctua.create_image_handle (Noctua.rotate90 doc.document) } := by
  simp only [App.RasterDocument.rotate_cw, hr, Noctua.RotationMode.rotate_cw, hnext]
  simp only [App.RasterDocument.rotate, App.RasterDocument.refresh_handle, hr,
    Noctua.RotationMode.to_degrees]
  rw [hdiff]
  norm_num

/-- The literal-shape version of `raster_cw_step`, for chaining steps. -/
theorem raster_cw_step_lit (doc0 : App.RasterDocument) (img : Noctua.Img)
    (cur next : Noctua.Rotation)
    (hnext : Noctua.Rotation.of_degrees ((cur.to_degrees + 90) % 360) = next)
    (hdiff : (next.to_degrees - cur.to_degrees + 360).tmod 360 = 90) :
    ({ doc0 with
        document := img
        transform := { doc0.transform with rotation := .Standard cur }
        handle := Noctua.create_image_handle img } : App.RasterDocument).rotate_cw =
      { doc0 with
        document := Noctua.rotate90 img
        transform := { doc0.transform with rotation := .Standard next }
        handle := Noctua.create_image_handle (Noctua.rotate90 img) } := by
  exact raster_cw_step
    { doc0 with
      document := img
      transform := { doc0.transform with rotation := .Standard cur }
      handle := Noctua.create_image_handle img } cur next rfl hnext hdiff

/-- `rerender` recomputes only the displayed buffer: the scene, the cached
scale and the transform are untouched. -/
theorem vec_rerender_fields (d : App.VectorDocument) :
    (d.rerender).rasterize = d.rasterize ∧
    (d.rerender).current_scale = d.current_scale ∧
    (d.rerender).transform = d.transform := by
  unfold App.VectorDocument.rerender
  cases h : App.render_document d.rasterize d.current_scale d.transform with
  | none => exact ⟨rfl, rfl, rfl⟩
  | some v =>
      rcases v with ⟨a, b, c⟩
      exact ⟨rfl, rfl, rfl⟩

/-- The fields of one vector clockwise step. -/
theorem vec_rotate_cw_fields (d : App.VectorDocument) :
    (d.rotate_cw).rasterize = d.rasterize ∧
    (d.rotate_cw).current_scale = d.current_scale ∧
    (d.rotate_cw).transform.rotation = (d.transform.rotation + 90) % 360 ∧
    (d.rotate_cw).transform.flip_h = d.transform.flip_h ∧
    (d.rotate_cw).transform.flip_v = d.transform.flip_v := by
  unfold App.VectorDocument.rotate_cw
  obtain ⟨h1, h2, h3⟩ := vec_rerender_fields
    { d with transform := { d.transform with rotation := (d.transform.rotation + 90) % 360 } }
  exact ⟨h1, h2, by rw [h3], by rw [h3], by rw [h3]⟩

/-- Re-rendering any document that agrees with `d` on scene, scale and
transform reproduces the buffer and dimensions of a consistent `d`. -/
theorem vec_rerender_consistent (d e : App.VectorDocument)
    (h1 : e.rasterize = d.rasterize) (h2 : e.current_scale = d.current_scale)
    (h3 : e.transform = d.transform) (hc : d.Consistent) :
    e.rerender =
      { e with
        rendered := d.rendered
        width := d.width
        height := d.height
        handle := Noctua.create_image_handle d.rendered } := by
  unfold App.VectorDocument.rerender
  rw [h1, h2, h3, hc]

/-- `rerender` for the app portable backend recomputes only the displayed
buffer. -/
theorem app_port_rerender_fields (d : App.PortableDocument) :
    (d.rerender).page_render = d.page_render ∧
    (d.rerender).current_page = d.current_page ∧
    (d.rerender).rotation = d.rotation := by
  unfold App.PortableDocument.rerender
  cases h : d.page_render d.current_page d.rotation App.PDF_RENDER_SCALE with
  | none => exact ⟨rfl, rfl, rfl⟩
  | some v => exact ⟨rfl, rfl, rfl⟩

/-- The fields of one app-portable clockwise step. -/
theorem app_port_rotate_cw_fields (d : App.PortableDocument) :
    (d.rotate_cw).page_render = d.page_render ∧
    (d.rotate_cw).current_page = d.current_page ∧
    (d.rotate_cw).rotation = (d.rotation + 90) % 360 := by
  unfold App.PortableDocument.rotate_cw
  obtain ⟨h1, h2, h3⟩ := app_port_rerender_fields
    { d with rotation := (d.rotation + 90) % 360 }
  exact ⟨h1, h2, h3⟩

/-- Re-rendering any app-portable document that agrees with `d` on renderer,
page and rotation reproduces the buffer of a consistent `d`. -/
theorem app_port_rerender_consistent (d e : App.PortableDocument)
    (h1 : e.page_render = d.page_render) (h2 : e.current_page = d.current_page)
    (h3 : e.rotation = d.rotation) (hc : d.Consistent) :
    e.rerender =
      { e with
        rendered := d.rendered
        handle := Noctua.create_image_handle d.rendered } := by
  unfold App.PortableDocument.rerender App.PortableDocument.refresh_handle
  rw [h1, h2, h3, hc]

/-- C8: for every well-formed open document of any of the three backends,
four `rotate_cw()` calls return the document to dimensions and pixel
content equal to its state before any rotation. -/
theorem c8_rotate_cw_four_times (dc : App.DocumentContent) (hok : dc.Ok) :
    (dc.rotate_cw.rotate_cw.rotate_cw.rotate_cw).content.Equiv dc.content ∧
    (dc.rotate_cw.rotate_cw.rotate_cw.rotate_cw).dimensions = dc.dimensions := by
  cases dc with
  | Raster doc =>
      obtain ⟨r, hr⟩ := hok
      simp only [App.DocumentContent.rotate_cw, App.DocumentContent.content,
        App.DocumentContent.dimensions, App.RasterDocument.dimensions]
      cases r
      · rw [raster_cw_step doc .None .Cw90 hr (by decide) (by decide),
          raster_cw_step_lit doc (Noctua.rotate90 doc.document)
            .Cw90 .Cw180 (by decide) (by decide),
          raster_cw_step_lit doc (Noctua.rotate90 (Noctua.rotate90 doc.document))
            .Cw180 .Cw270 (by decide) (by decide),
          raster_cw_step_lit doc
            (Noctua.rotate90 (Noctua.rotate90 (Noctua.rotate90 doc.document)))
            .Cw270 .None (by decide) (by decide)]
        exact ⟨rotate90_four_times doc.document, rfl⟩
      · rw [raster_cw_step doc .Cw90 .Cw180 hr (by decide) (by decide),
          raster_cw_step_lit doc (Noctua.rotate90 doc.document)
            .Cw180 .Cw270 (by decide) (by decide),
          raster_cw_step_lit doc (Noctua.rotate90 (Noctua.rotate90 doc.document))
            .Cw270 .None (by decide) (by decide),
          raster_cw_step_lit doc
            (Noctua.rotate90 (Noctua.rotate90 (Noctua.rotate90 doc.document)))
            .None .Cw90 (by decide) (by decide)]
        exact ⟨rotate90_four_times doc.document, rfl⟩
      · rw [raster_cw_step doc .Cw180 .Cw270 hr (by decide) (by decide),
          raster_cw_step_lit doc (Noctua.rotate90 doc.document)
            .Cw270 .None (by decide) (by decide),
          raster_cw_step_lit doc (Noctua.rotate90 (Noctua.rotate90 doc.document))
            .None .Cw90 (by decide) (by decide),
          raster_cw_step_lit doc
            (Noctua.rotate90 (Noctua.rotate90 (Noctua.rotate90 doc.document)))
            .Cw90 .Cw180 (by decide) (by decide)]
        exact ⟨rotate90_four_times doc.document, rfl⟩
      · rw [raster_cw_step doc .Cw270 .None hr (by decide) (by decide),
          raster_cw_step_lit doc (Noctua.rotate90 doc.document)
            .None .Cw90 (by decide) (by decide),
          raster_cw_step_lit doc (Noctua.rotate90 (Noctua.rotate90 doc.document))
            .Cw90 .Cw180 (by decide) (by decide),
          raster_cw_step_lit doc
            (Noctua.rotate90 (Noctua.rotate90 (Noctua.rotate90 doc.document)))
            .Cw180 .Cw270 (by decide) (by decide)]
        exact ⟨rotate90_four_times doc.document, rfl⟩
  | Vector doc =>
      obtain ⟨hge, hlt, hc⟩ := hok
      simp only [App.DocumentContent.rotate_cw, App.DocumentContent.content,
        App.DocumentContent.dimensions]
      obtain ⟨a1, b1, r1, f1, g1⟩ := vec_rotate_cw_fields doc
      obtain ⟨a2, b2, r2, f2, g2⟩ := vec_rotate_cw_fields doc.rotate_cw
      obtain ⟨a3, b3, r3, f3, g3⟩ := vec_rotate_cw_fields doc.rotate_cw.rotate_cw
      set d3 := doc.rotate_cw.rotate_cw.rotate_cw with hd3
      have ha3 : d3.rasterize = doc.rasterize := by
        rw [hd3, a3, a2, a1]
      have hb3 : d3.current_scale = doc.current_scale := by
        rw [hd3, b3, b2, b1]
      have hr3 : d3.transform.rotation =
          (((((doc.transform.rotation + 90) % 360 + 90) % 360) + 90) % 360) := by
        rw [hd3, r3, r2, r1]
      have hf3 : d3.transform.flip_h = doc.transform.flip_h := by
        rw [hd3, f3, f2, f1]
      have hg3 : d3.transform.flip_v = doc.transform.flip_v := by
        rw [hd3, g3, g2, g1]
      have hstep4 : d3.rotate_cw =
          App.VectorDocument.rerender
            { d3 with
              transform :=
                { d3.transform with rotation := (d3.transform.rotation + 90) % 360 } } := by
        rw [App.VectorDocument.rotate_cw]
      have htr : ({ d3.transform with
          rotation := (d3.transform.rotation + 90) % 360 } : App.VectorTransform) =
          doc.transform := by
        apply vt_ext
        · show (d3.transform.rotation + 90) % 360 = doc.transform.rotation
          rw [hr3]
          omega
        · exact hf3
        · exact hg3
      have hfin := vec_rerender_consistent doc
        { d3 with
          transform := { d3.transform with rotation := (d3.transform.rotation + 90) % 360 } }
        ha3 hb3 htr hc
      rw [hstep4, hfin]
      exact ⟨Img.Equiv.refl doc.rendered, rfl⟩
  | Portable doc =>
      obtain ⟨hge, hlt, hc⟩ := hok
      simp only [App.DocumentContent.rotate_cw, App.DocumentContent.content,
        App.DocumentContent.dimensions, App.PortableDocument.dimensions]
      obtain ⟨a1, b1, r1⟩ := app_port_rotate_cw_fields doc
      obtain ⟨a2, b2, r2⟩ := app_port_rotate_cw_fields doc.rotate_cw
      obtain ⟨a3, b3, r3⟩ := app_port_rotate_cw_fields doc.rotate_cw.rotate_cw
      set d3 := doc.rotate_cw.rotate_cw.rotate_cw with hd3
      have ha3 : d3.page_render = doc.page_render := by
        rw [hd3, a3, a2, a1]
      have hb3 : d3.current_page = doc.current_page := by
        rw [hd3, b3, b2, b1]
      have hr3 : d3.rotation =
          (((((doc.rotation + 90) % 360 + 90) % 360) + 90) % 360) := by
        rw [hd3, r3, r2, r1]
      have hstep4 : d3.rotate_cw =
          App.PortableDocument.rerender { d3 with rotation := (d3.rotation + 90) % 360 } := by
        rw [App.PortableDocument.rotate_cw]
      have hrotfin : (({ d3 with
          rotation := (d3.rotation + 90) % 360 } : App.PortableDocument)).rotation =
          doc.rotation := by
        show (d3.rotation + 90) % 360 = doc.rotation
        rw [hr3]
        omega
      have hfin := app_port_rerender_consistent doc
        { d3 with rotation := (d3.rotation + 90) % 360 } ha3 hb3 hrotfin hc
      rw [hstep4, hfin]
      exact ⟨Img.Equiv.refl doc.rendered, rfl⟩

/-- C8 witness: on the concrete raster sample, four clockwise rotations
restore pixel content and dimensions. -/
theorem c8_rotate_cw_four_times_witness :
    ((App.DocumentContent.Raster sample_raster).rotate_cw.rotate_cw.rotate_cw.rotate_cw).content.Equiv
      (App.DocumentContent.Raster sample_raster).content ∧
    ((App.DocumentContent.Raster sample_raster).rotate_cw.rotate_cw.rotate_cw.rotate_cw).dimensions =
      (App.DocumentContent.Raster sample_raster).dimensions :=
  c8_rotate_cw_four_times (App.DocumentContent.Raster sample_raster) ⟨.None, rfl⟩

-- ============================================================================
-- C9 — double flip restores pixel content; single flips are not collapsed
-- ============================================================================

/-- The fields of one vector flip step. -/
theorem vec_flip_h_fields (d : App.VectorDocument) :
    (d.flip_horizontal).rasterize = d.rasterize ∧
    (d.flip_horizontal).current_scale = d.current_scale ∧
    (d.flip_horizontal).transform.rotation = d.transform.rotation ∧
    (d.flip_horizontal).transform.flip_h = !d.transform.flip_h ∧
    (d.flip_horizontal).transform.flip_v = d.transform.flip_v := by
  unfold App.VectorDocument.flip_horizontal
  obtain ⟨h1, h2, h3⟩ := vec_rerender_fields
    { d with transform := { d.transform with flip_h := !d.transform.flip_h } }
  exact ⟨h1, h2, by rw [h3], by rw [h3], by rw [h3]⟩

/-- The fields of one vertical vector flip step. -/
theorem vec_flip_v_fields (d : App.VectorDocument) :
    (d.flip_vertical).rasterize = d.rasterize ∧
    (d.flip_vertical).current_scale = d.current_scale ∧
    (d.flip_vertical).transform.rotation = d.transform.rotation ∧
    (d.flip_vertical).transform.flip_h = d.transform.flip_h ∧
    (d.flip_vertical).transform.flip_v = !d.transform.flip_v := by
  unfold App.VectorDocument.flip_vertical
  obtain ⟨h1, h2, h3⟩ := vec_rerender_fields
    { d with transform := { d.transform with flip_v := !d.transform.flip_v } }
  exact ⟨h1, h2, by rw [h3], by rw [h3], by rw [h3]⟩

/-- `rerender` for the domain portable backend recomputes only the displayed
buffer. -/
theorem dom_rerender_fields (d : Dom.PortableDocument) :
    (d.rerender).page_render = d.page_render ∧
    (d.rerender).page_index = d.page_index ∧
    (d.rerender).transform = d.transform := by
  unfold Dom.PortableDocument.rerender
  cases h : d.page_render d.page_index d.transform.rotation Dom.PDF_RENDER_QUALITY with
  | none => exact ⟨rfl, rfl, rfl⟩
  | some v => exact ⟨rfl, rfl, rfl⟩

/-- Re-rendering any domain portable document that agrees with `d` on
renderer, page and transform reproduces the buffer of a consistent `d`. -/
theorem dom_rerender_consistent (d e : Dom.PortableDocument)
    (h1 : e.page_render = d.page_render) (h2 : e.page_index = d.page_index)
    (h3 : e.transform = d.transform) (hc : d.Consistent) :
    (e.rerender).rendered = d.rendered := by
  obtain ⟨base, hb, hr⟩ := hc
  unfold Dom.PortableDocument.rerender
  rw [h1, h2, h3, hb]
  exact hr.symm

/-- The fields of one domain portable flip step. -/
theorem dom_flip_fields (d : Dom.PortableDocument) (dir : Noctua.FlipDirection) :
    (d.flip dir).page_render = d.page_render ∧
    (d.flip dir).page_index = d.page_index ∧
    (d.flip dir).transform =
      (match dir with
        | .Horizontal => { d.transform with flip_h := !d.transform.flip_h }
        | .Vertical => { d.transform with flip_v := !d.transform.flip_v }) := by
  cases dir <;>
    · unfold Dom.PortableDocument.flip
      obtain ⟨h1, h2, h3⟩ := dom_rerender_fields _
      exact ⟨h1, h2, h3⟩

/-- C9: for every open document, `flip(Horizontal)` applied twice, or
`flip(Vertical)` applied twice, yields pixel content identical to the
pre-flip state; and the single flips are not collapsed away: on the
backends carrying flip flags (raster, vector, and the domain portable
backend) each flip call toggles the corresponding flag (and, for the
re-deriving backends, goes through a re-render), while the app portable
backend mirrors the rendered buffer in place on every call. -/
theorem c9_double_flip :
    (∀ dc : App.DocumentContent, dc.FlipOk →
      (dc.flip_horizontal.flip_horizontal).content.Equiv dc.content ∧
      (dc.flip_vertical.flip_vertical).content.Equiv dc.content) ∧
    (∀ rdoc : App.RasterDocument,
      (rdoc.flip .Horizontal).transform.flip_h = !rdoc.transform.flip_h ∧
      (rdoc.flip .Vertical).transform.flip_v = !rdoc.transform.flip_v ∧
      (rdoc.flip .Horizontal).document = Noctua.flip_horizontal rdoc.document) ∧
    (∀ v : App.VectorDocument,
      (v.flip_horizontal).transform.flip_h = !v.transform.flip_h ∧
      (v.flip_vertical).transform.flip_v = !v.transform.flip_v) ∧
    (∀ p : Dom.PortableDocument, p.Consistent →
      ((p.flip .Horizontal).flip .Horizontal).rendered.Equiv p.rendered ∧
      ((p.flip .Vertical).flip .Vertical).rendered.Equiv p.rendered ∧
      (p.flip .Horizontal).transform.flip_h = !p.transform.flip_h ∧
      (p.flip .Vertical).transform.flip_v = !p.transform.flip_v) := by
  have hdomflip : ∀ (p : Dom.PortableDocument) (dir : Noctua.FlipDirection),
      p.Consistent → ((p.flip dir).flip dir).rendered = p.rendered := by
    intro p dir hc
    obtain ⟨a1, b1, c1⟩ := dom_flip_fields p dir
    cases dir
    · have hstep : (p.flip .Horizontal).flip .Horizontal =
          Dom.PortableDocument.rerender
            { p.flip .Horizontal with
              transform :=
                { (p.flip .Horizontal).transform with
                  flip_h := !(p.flip .Horizontal).transform.flip_h } } := rfl
      have hts : ({ p.flip .Horizontal with
          transform :=
            { (p.flip .Horizontal).transform with
              flip_h := !(p.flip .Horizontal).transform.flip_h } } :
            Dom.PortableDocument).transform = p.transform := by
        apply ts_ext
        · show (p.flip .Horizontal).transform.rotation = p.transform.rotation
          rw [c1]
        · show (!(p.flip .Horizontal).transform.flip_h) = p.transform.flip_h
          rw [c1]
          simp
        · show (p.flip .Horizontal).transform.flip_v = p.transform.flip_v
          rw [c1]
      have hfin := dom_rerender_consistent p
        { p.flip .Horizontal with
          transform :=
            { (p.flip .Horizontal).transform with
              flip_h := !(p.flip .Horizontal).transform.flip_h } }
        a1 b1 hts hc
      rw [hstep]
      exact hfin
    · have hstep : (p.flip .Vertical).flip .Vertical =
          Dom.PortableDocument.rerender
            { p.flip .Vertical with
              transform :=
                { (p.flip .Vertical).transform with
                  flip_v := !(p.flip .Vertical).transform.flip_v } } := rfl
      have hts : ({ p.flip .Vertical with
          transform :=
            { (p.flip .Vertical).transform with
              flip_v := !(p.flip .Vertical).transform.flip_v } } :
            Dom.PortableDocument).transform = p.transform := by
        apply ts_ext
        · show (p.flip .Vertical).transform.rotation = p.transform.rotation
          rw [c1]
        · show (p.flip .Vertical).transform.flip_h = p.transform.flip_h
          rw [c1]
        · show (!(p.flip .Vertical).transform.flip_v) = p.transform.flip_v
          rw [c1]
          simp
      have hfin := dom_rerender_consistent p
        { p.flip .Vertical with
          transform :=
            { (p.flip .Vertical).transform with
              flip_v := !(p.flip .Vertical).transform.flip_v } }
        a1 b1 hts hc
      rw [hstep]
      exact hfin
  refine ⟨?_, ?_, ?_, ?_⟩
  · intro dc hok
    cases dc with
    | Raster doc =>
        simp only [App.DocumentContent.flip_horizontal,
          App.DocumentContent.flip_vertical, App.DocumentContent.content,
          App.RasterDocument.flip, App.RasterDocument.refresh_handle]
        exact ⟨flip_horizontal_twice doc.document, flip_vertical_twice doc.document⟩
    | Vector doc =>
        simp only [App.DocumentContent.flip_horizontal,
          App.DocumentContent.flip_vertical, App.DocumentContent.content]
        obtain ⟨a1, b1, r1, f1, g1⟩ := vec_flip_h_fields doc
        obtain ⟨a2, b2, r2, f2, g2⟩ := vec_flip_v_fields doc
        constructor
        · have hstep : (doc.flip_horizontal).flip_horizontal =
              App.VectorDocument.rerender
                { doc.flip_horizontal with
                  transform :=
                    { (doc.flip_horizontal).transform with
                      flip_h := !(doc.flip_horizontal).transform.flip_h } } := rfl
          have htr : ({ doc.flip_horizontal with
              transform :=
                { (doc.flip_horizontal).transform with
                  flip_h := !(doc.flip_horizontal).transform.flip_h } } :
                App.VectorDocument).transform = doc.transform := by
            apply vt_ext
            · show (doc.flip_horizontal).transform.rotation = doc.transform.rotation
              rw [r1]
            · show (!(doc.flip_horizontal).transform.flip_h) = doc.transform.flip_h
              rw [f1]
              simp
            · show (doc.flip_horizontal).transform.flip_v = doc.transform.flip_v
              rw [g1]
          have hfin := vec_rerender_consistent doc
            { doc.flip_horizontal with
              transform :=
                { (doc.flip_horizontal).transform with
                  flip_h := !(doc.flip_horizontal).transform.flip_h } }
            a1 b1 htr hok
          rw [hstep, hfin]
          exact Img.Equiv.refl doc.rendered
        · have hstep : (doc.flip_vertical).flip_vertical =
              App.VectorDocument.rerender
                { doc.flip_vertical with
                  transform :=
                    { (doc.flip_vertical).transform with
                      flip_v := !(doc.flip_vertical).transform.flip_v } } := rfl
          have htr : ({ doc.flip_vertical with
              transform :=
                { (doc.flip_vertical).transform with
                  flip_v := !(doc.flip_vertical).transform.flip_v } } :
                App.VectorDocument).transform = doc.transform := by
            apply vt_ext
            · show (doc.flip_vertical).transform.rotation = doc.transform.rotation
              rw [r2]
            · show (doc.flip_vertical).transform.flip_h = doc.transform.flip_h
              rw [f2]
            · show (!(doc.flip_vertical).transform.flip_v) = doc.transform.flip_v
              rw [g2]
              simp
          have hfin := vec_rerender_consistent doc
            { doc.flip_vertical with
              transform :=
                { (doc.flip_vertical).transform with
                  flip_v := !(doc.flip_vertical).transform.flip_v } }
            a2 b2 htr hok
          rw [hstep, hfin]
          exact Img.Equiv.refl doc.rendered
    | Portable doc =>
        simp only [App.DocumentContent.flip_horizontal,
          App.DocumentContent.flip_vertical, App.DocumentContent.content,
          App.PortableDocument.flip_horizontal, App.PortableDocument.flip_vertical,
          App.PortableDocument.refresh_handle]
        exact ⟨flip_horizontal_twice doc.rendered, flip_vertical_twice doc.rendered⟩
  · intro rdoc
    exact ⟨rfl, rfl, rfl⟩
  · intro v
    exact ⟨(vec_flip_h_fields v).2.2.2.1, (vec_flip_v_fields v).2.2.2.2⟩
  · intro p hc
    refine ⟨Img.Equiv.of_eq (hdomflip p .Horizontal hc),
      Img.Equiv.of_eq (hdomflip p .Vertical hc), ?_, ?_⟩
    · have := (dom_flip_fields p .Horizontal).2.2
      rw [this]
    · have := (dom_flip_fields p .Vertical).2.2
      rw [this]

/-- C9 witness: double flips restore the concrete raster and domain portable
samples, and single flips toggle their flags. -/
theorem c9_double_flip_witness :
    ((App.DocumentContent.Raster sample_raster).flip_horizontal.flip_horizontal).content.Equiv
      (App.DocumentContent.Raster sample_raster).content ∧
    ((sample_dom.flip .Horizontal).flip .Horizontal).rendered.Equiv sample_dom.rendered ∧
    (sample_dom.flip .Horizontal).transform.flip_h = !sample_dom.transform.flip_h := by
  have h := c9_double_flip
  refine ⟨(h.1 (App.DocumentContent.Raster sample_raster) trivial).1, ?_, ?_⟩
  · exact (h.2.2.2 sample_dom ⟨sample_img, rfl, rfl⟩).1
  · exact (h.2.2.2 sample_dom ⟨sample_img, rfl, rfl⟩).2.2.1

end Noctua
